import Mathlib

/-!
Verification of the EVall content-management backend's structured-content
core: the EditorJS document model, the reading-time and excerpt derivation
functions, slug generation, publish/unpublish state transitions, the
view-counter increment, the SEO-tag fallback chain, the singleton advanced
SEO settings record, and the latest-posts endpoint.

The Python source is shallowly embedded: JSON values become an inductive
`Json` type, Python dict/str/list operations become explicit functions, and
operations that can raise (`AttributeError`, `TypeError`) return
`Except PyErr`.  Machine-level caveat: Python computes
`round(word_count / 200)` through a double-precision float; for any word
count below 2^53 this coincides with exact rational round-half-to-even,
which is what `pyRound200` implements.
-/

/-- Errors the embedded Python code can raise. -/
inductive PyErr where
  | attributeError
  | typeError
deriving DecidableEq, Repr

/-- Untyped JSON values, as stored in the EditorJS `content` field.
`Json.null` also stands for Python `None` (an absent document). -/
inductive Json where
  | null
  | bool (b : Bool)
  | num (n : Int)
  | str (s : String)
  | arr (xs : List Json)
  | obj (kvs : List (String × Json))
deriving Repr

mutual

/-- Decidable equality for `Json` (the derive handler cannot cope with the
nested `List` occurrences). -/
def Json.decEq : (a b : Json) → Decidable (a = b)
  | Json.null, Json.null => isTrue rfl
  | Json.bool a, Json.bool b =>
    if h : a = b then isTrue (by rw [h])
    else isFalse (by intro hh; injection hh; contradiction)
  | Json.num a, Json.num b =>
    if h : a = b then isTrue (by rw [h])
    else isFalse (by intro hh; injection hh; contradiction)
  | Json.str a, Json.str b =>
    if h : a = b then isTrue (by rw [h])
    else isFalse (by intro hh; injection hh; contradiction)
  | Json.arr xs, Json.arr ys =>
    match Json.decEqList xs ys with
    | isTrue h => isTrue (by rw [h])
    | isFalse h => isFalse (by intro hh; injection hh; contradiction)
  | Json.obj xs, Json.obj ys =>
    match Json.decEqObj xs ys with
    | isTrue h => isTrue (by rw [h])
    | isFalse h => isFalse (by intro hh; injection hh; contradiction)
  | Json.null, Json.bool _ => isFalse (by intro h; injection h)
  | Json.null, Json.num _ => isFalse (by intro h; injection h)
  | Json.null, Json.str _ => isFalse (by intro h; injection h)
  | Json.null, Json.arr _ => isFalse (by intro h; injection h)
  | Json.null, Json.obj _ => isFalse (by intro h; injection h)
  | Json.bool _, Json.null => isFalse (by intro h; injection h)
  | Json.bool _, Json.num _ => isFalse (by intro h; injection h)
  | Json.bool _, Json.str _ => isFalse (by intro h; injection h)
  | Json.bool _, Json.arr _ => isFalse (by intro h; injection h)
  | Json.bool _, Json.obj _ => isFalse (by intro h; injection h)
  | Json.num _, Json.null => isFalse (by intro h; injection h)
  | Json.num _, Json.bool _ => isFalse (by intro h; injection h)
  | Json.num _, Json.str _ => isFalse (by intro h; injection h)
  | Json.num _, Json.arr _ => isFalse (by intro h; injection h)
  | Json.num _, Json.obj _ => isFalse (by intro h; injection h)
  | Json.str _, Json.null => isFalse (by intro h; injection h)
  | Json.str _, Json.bool _ => isFalse (by intro h; injection h)
  | Json.str _, Json.num _ => isFalse (by intro h; injection h)
  | Json.str _, Json.arr _ => isFalse (by intro h; injection h)
  | Json.str _, Json.obj _ => isFalse (by intro h; injection h)
  | Json.arr _, Json.null => isFalse (by intro h; injection h)
  | Json.arr _, Json.bool _ => isFalse (by intro h; injection h)
  | Json.arr _, Json.num _ => isFalse (by intro h; injection h)
  | Json.arr _, Json.str _ => isFalse (by intro h; injection h)
  | Json.arr _, Json.obj _ => isFalse (by intro h; injection h)
  | Json.obj _, Json.null => isFalse (by intro h; injection h)
  | Json.obj _, Json.bool _ => isFalse (by intro h; injection h)
  | Json.obj _, Json.num _ => isFalse (by intro h; injection h)
  | Json.obj _, Json.str _ => isFalse (by intro h; injection h)
  | Json.obj _, Json.arr _ => isFalse (by intro h; injection h)

/-- Decidable equality for lists of `Json`. -/
def Json.decEqList : (a b : List Json) → Decidable (a = b)
  | [], [] => isTrue rfl
  | [], _ :: _ => isFalse (by intro h; injection h)
  | _ :: _, [] => isFalse (by intro h; injection h)
  | x :: xs, y :: ys =>
    match Json.decEq x y with
    | isTrue h1 =>
      match Json.decEqList xs ys with
      | isTrue h2 => isTrue (by rw [h1, h2])
      | isFalse h2 => isFalse (by intro hh; injection hh; contradiction)
    | isFalse h1 => isFalse (by intro hh; injection hh; contradiction)

/-- Decidable equality for lists of object entries. -/
def Json.decEqObj : (a b : List (String × Json)) → Decidable (a = b)
  | [], [] => isTrue rfl
  | [], _ :: _ => isFalse (by intro h; injection h)
  | _ :: _, [] => isFalse (by intro h; injection h)
  | (k1, v1) :: xs, (k2, v2) :: ys =>
    if hk : k1 = k2 then
      match Json.decEq v1 v2 with
      | isTrue h1 =>
        match Json.decEqObj xs ys with
        | isTrue h2 => isTrue (by rw [hk, h1, h2])
        | isFalse h2 => isFalse (by intro hh; injection hh; contradiction)
      | isFalse h1 => isFalse (by
          intro hh; injection hh with hp _; injection hp; contradiction)
    else isFalse (by
        intro hh; injection hh with hp _; injection hp; contradiction)

end

instance : DecidableEq Json := Json.decEq

/-- First value bound to key `k` in a decoded JSON object (Python dict keys
are unique, so first match is the dict lookup). -/
def jLookup (kvs : List (String × Json)) (k : String) : Option Json :=
  (kvs.find? (fun e => e.fst = k)).map (fun e => e.snd)

/-- Python truthiness of a JSON value (`if not self.content`). -/
def isFalsy : Json → Bool
  | Json.null => true
  | Json.bool b => !b
  | Json.num n => n = 0
  | Json.str s => s = ""
  | Json.arr xs => xs.isEmpty
  | Json.obj kvs => kvs.isEmpty

/-- Python `x.get(k, default)`: dict lookup with default; any non-dict
receiver raises `AttributeError`. -/
def pyGet (v : Json) (k : String) (dflt : Json) : Except PyErr Json :=
  match v with
  | Json.obj kvs => Except.ok ((jLookup kvs k).getD dflt)
  | _ => Except.error PyErr.attributeError

/-- Python `for x in v`: lists iterate elements, strings iterate their
characters (as one-character strings), dicts iterate their keys; every
other value raises `TypeError`. -/
def pyIter (v : Json) : Except PyErr (List Json) :=
  match v with
  | Json.arr xs => Except.ok xs
  | Json.str s => Except.ok (s.data.map (fun c => Json.str (String.singleton c)))
  | Json.obj kvs => Except.ok (kvs.map (fun e => Json.str e.fst))
  | _ => Except.error PyErr.typeError

/-- Python `re.sub` demands a string subject; passing any other value raises
`TypeError`. -/
def asStr (v : Json) : Except PyErr String :=
  match v with
  | Json.str s => Except.ok s
  | _ => Except.error PyErr.typeError

/-- Python `repr` of a string: single-quoted with backslash and quote
escaped (enough for the values the code manipulates). -/
def strRepr (s : String) : String :=
  "'" ++ String.mk (s.data.foldr
    (fun c acc => if c = '\\' ∨ c = '\'' then '\\' :: c :: acc else c :: acc) []) ++ "'"

mutual

/-- Python `repr` of a JSON value. -/
def pyRepr : Json → String
  | Json.null => "None"
  | Json.bool b => if b then "True" else "False"
  | Json.num n => toString n
  | Json.str s => strRepr s
  | Json.arr xs => "[" ++ pyReprList xs ++ "]"
  | Json.obj kvs => "\x7b" ++ pyReprObj kvs ++ "\x7d"

/-- Comma-separated `repr`s of list elements. -/
def pyReprList : List Json → String
  | [] => ""
  | [x] => pyRepr x
  | x :: y :: t => pyRepr x ++ ", " ++ pyReprList (y :: t)

/-- Comma-separated `repr`s of dict entries. -/
def pyReprObj : List (String × Json) → String
  | [] => ""
  | [(k, v)] => strRepr k ++ ": " ++ pyRepr v
  | (k, v) :: e :: t => strRepr k ++ ": " ++ pyRepr v ++ ", " ++ pyReprObj (e :: t)

end

/-- Python `str()`: identity on strings, `repr`-like otherwise. -/
def pyStr : Json → String
  | Json.str s => s
  | v => pyRepr v

/-- Characters Python `str.split()` treats as separators (ASCII whitespace;
the code's content never carries non-ASCII whitespace). -/
def pySpace (c : Char) : Bool :=
  c = ' ' ∨ c = '\t' ∨ c = '\n' ∨ c = '\r' ∨ c = '\x0b' ∨ c = '\x0c'

/-- Number of maximal non-whitespace runs: `len(text.split())`. -/
def countWordsAux : List Char → Bool → Nat
  | [], _ => 0
  | c :: cs, inWord =>
    if pySpace c then countWordsAux cs false
    else (if inWord then 0 else 1) + countWordsAux cs true

/-- Python `len(s.split())`. -/
def countWords (s : String) : Nat := countWordsAux s.data false

/-- After an opening `'<'`, the regex `<[^>]+>` matches iff the first
`'>'` in the remainder exists and is not immediately adjacent; the match
consumes through that `'>'`. -/
def takeTag (cs : List Char) : Option (List Char) :=
  match cs.findIdx? (fun c => c = '>') with
  | none => none
  | some 0 => none
  | some (i + 1) => some (cs.drop (i + 2))

/-- The substitution `re.sub(r'<[^>]+>', '', ·)` on a character list: each `'<'` that is
followed (after at least one intervening non-`'>'` character) by a `'>'`
is removed together with everything up to and including that `'>'`.
Every step consumes at least one character, so `fuel` equal to the list
length makes the fuel-exhaustion arm unreachable. -/
def stripGo : Nat → List Char → List Char
  | _, [] => []
  | 0, l => l
  | fuel + 1, c :: cs =>
    if c = '<' then
      match takeTag cs with
      | some rest => stripGo fuel rest
      | none => c :: stripGo fuel cs
    else c :: stripGo fuel cs

/-- Python `re.sub(r'<[^>]+>', '', s)`. -/
def stripTags (s : String) : String := String.mk (stripGo s.data.length s.data)

/-- Python `round(n / 200)` for a nonnegative integer word count `n`:
exact round-half-to-even of the rational `n / 200` (the float detour is
exact for all realistic word counts). -/
def pyRound200 (n : Nat) : Nat :=
  if n % 200 < 100 then n / 200
  else if n % 200 = 100 then (if (n / 200) % 2 = 0 then n / 200 else n / 200 + 1)
  else n / 200 + 1

/-- Word contribution of one EditorJS block, as in
`BlogPost.calculate_reading_time`: text-bearing kinds
(`paragraph`/`header`/`quote`/`Header`) count the words of the
tag-stripped `data.text`; list kinds (`list`/`List`) count the words of
`str(item)` for each entry of `data.items`; every other kind contributes
zero.  Raises exactly where the Python does. -/
def blockWords (block : Json) : Except PyErr Nat := do
  let t ← pyGet block "type" Json.null
  if t = Json.str "paragraph" ∨ t = Json.str "header" ∨
      t = Json.str "quote" ∨ t = Json.str "Header" then
    let data ← pyGet block "data" (Json.obj [])
    let text ← pyGet data "text" (Json.str "")
    let s ← asStr text
    pure (countWords (stripTags s))
  else if t = Json.str "list" ∨ t = Json.str "List" then
    let data ← pyGet block "data" (Json.obj [])
    let items ← pyGet data "items" (Json.arr [])
    let xs ← pyIter items
    pure ((xs.map (fun it => countWords (stripTags (pyStr it)))).sum)
  else
    pure 0

/-- Left-to-right accumulation of `blockWords`, stopping at the first
raised error, as the Python `for` loop does. -/
def sumBlockWords : List Json → Except PyErr Nat
  | [] => Except.ok 0
  | b :: bs => do
    let w ← blockWords b
    let rest ← sumBlockWords bs
    pure (w + rest)

/-- The method `BlogPost.calculate_reading_time`: 1 for a falsy document; otherwise
the word count of the `blocks` list (0 when the value is not a dict or
has no `blocks` key) divided by 200, rounded, and floored at 1. -/
def calcReadingTime (content : Json) : Except PyErr Nat :=
  if isFalsy content then Except.ok 1
  else
    match content with
    | Json.obj kvs =>
      match jLookup kvs "blocks" with
      | some blocks => do
        let bs ← pyIter blocks
        let wc ← sumBlockWords bs
        pure (max 1 (pyRound200 wc))
      | none => Except.ok (max 1 (pyRound200 0))
    | _ => Except.ok (max 1 (pyRound200 0))

/-- The blocks sequence of a document, per the spec's document model: the
`blocks` array of an object document, and empty for an absent or
malformed document. -/
def docBlocks (c : Json) : List Json :=
  match c with
  | Json.obj kvs =>
    match jLookup kvs "blocks" with
    | some (Json.arr bs) => bs
    | _ => []
  | _ => []

/-- Spec kinds whose `text` is counted: paragraph, header, quote, where
per the spec's casing note `Header` is a variant of `header`. -/
def spec_isTextKind (t : String) : Bool :=
  t = "paragraph" ∨ t = "header" ∨ t = "Header" ∨ t = "quote"

/-- Spec list kind, where per the spec's casing note `List` is a variant
of `list`. -/
def spec_isListKind (t : String) : Bool :=
  t = "list" ∨ t = "List"

/-- Kind tag of a block (a string `type` field), if it has one. -/
def spec_blockKind (b : Json) : Option String :=
  match b with
  | Json.obj kvs =>
    match jLookup kvs "type" with
    | some (Json.str t) => some t
    | _ => none
  | _ => none

/-- Text payload of a block, empty when missing. -/
def spec_blockText (b : Json) : String :=
  match b with
  | Json.obj kvs =>
    match jLookup kvs "data" with
    | some (Json.obj dkvs) =>
      match jLookup dkvs "text" with
      | some (Json.str s) => s
      | _ => ""
    | _ => ""
  | _ => ""

/-- Item strings of a list block, empty when missing. -/
def spec_blockItems (b : Json) : List String :=
  match b with
  | Json.obj kvs =>
    match jLookup kvs "data" with
    | some (Json.obj dkvs) =>
      match jLookup dkvs "items" with
      | some (Json.arr xs) =>
        xs.filterMap (fun it =>
          match it with
          | Json.str s => some s
          | _ => none)
      | _ => []
    | _ => []
  | _ => []

/-- Spec-side word contribution of one block: text kinds count the words
of their tag-stripped text, the list kind counts the words of every item,
and any other kind (recognized or unknown) contributes zero. -/
def spec_blockWordCount (b : Json) : Nat :=
  match spec_blockKind b with
  | some t =>
    if spec_isTextKind t then countWords (stripTags (spec_blockText b))
    else if spec_isListKind t then
      ((spec_blockItems b).map (fun s => countWords (stripTags s))).sum
    else 0
  | none => 0

/-- Spec-side total word count of a document. -/
def spec_wordCount (c : Json) : Nat :=
  ((docBlocks c).map spec_blockWordCount).sum

/-- Spec-side reading time: total word count divided by 200 words/minute,
rounded to the nearest integer, floored at 1. -/
def spec_readingTime (c : Json) : Nat :=
  max 1 (pyRound200 (spec_wordCount c))

/-- A list item of the shape the spec's document model prescribes (an
item string). -/
def goodItem : Json → Bool
  | Json.str _ => true
  | _ => false

/-- A block of the shape the spec's document model prescribes: an object
whose `data` (when present) is an object with a string `text` (when
present) and an array of item strings `items` (when present). -/
def goodBlock : Json → Bool
  | Json.obj kvs =>
    (match jLookup kvs "data" with
     | none => true
     | some (Json.obj dkvs) =>
       (match jLookup dkvs "text" with
        | none => true
        | some (Json.str _) => true
        | some _ => false)
       &&
       (match jLookup dkvs "items" with
        | none => true
        | some (Json.arr xs) => xs.all goodItem
        | some _ => false)
     | some _ => false)
  | _ => false

/-- A document of the shape the spec's document model prescribes: absent,
not an object, an object without `blocks`, or an object whose `blocks`
is an array of well-shaped blocks. -/
def wellShaped : Json → Bool
  | Json.obj kvs =>
    (match jLookup kvs "blocks" with
     | none => true
     | some (Json.arr bs) => bs.all goodBlock
     | some _ => false)
  | _ => true

/-- Scan for the first block whose `type` is exactly `"paragraph"` and
produce its excerpt text, as the loop in
`BlogPostListSerializer.get_excerpt` does: strip markup tags from
`data.text`, truncate to 200 characters and append an ellipsis iff the
stripped text is longer than 200 characters.  Raises exactly where the
Python does. -/
def firstParagraph : List Json → Except PyErr (Option String)
  | [] => Except.ok none
  | b :: bs => do
    let t ← pyGet b "type" Json.null
    if t = Json.str "paragraph" then
      let data ← pyGet b "data" (Json.obj [])
      let text ← pyGet data "text" (Json.str "")
      let s ← asStr text
      let s := stripTags s
      pure (some (if s.length > 200 then s.take 200 ++ "..." else s))
    else
      firstParagraph bs

/-- The method `BlogPostListSerializer.get_excerpt`: a non-empty `meta_description`
is returned unchanged; otherwise the first `paragraph` block of a truthy
dict document is excerpted, and everything else degrades to `""`. -/
def getExcerpt (metaDescription : String) (content : Json) : Except PyErr String :=
  if metaDescription ≠ "" then Except.ok metaDescription
  else
    match content with
    | Json.obj kvs =>
      if isFalsy (Json.obj kvs) then Except.ok ""
      else do
        let blocks := (jLookup kvs "blocks").getD (Json.arr [])
        let bs ← pyIter blocks
        let r ← firstParagraph bs
        pure (r.getD "")
    | _ => Except.ok ""

/-- Spec-side predicate: a block tagged exactly `paragraph`. -/
def spec_isParaBlock (b : Json) : Bool :=
  spec_blockKind b = some "paragraph"

/-- Spec-side excerpt: the explicit description when non-empty, else the
tag-stripped text of the first paragraph block truncated to 200
characters (ellipsis appended iff longer), else the empty string. -/
def spec_excerpt (metaDescription : String) (c : Json) : String :=
  if metaDescription ≠ "" then metaDescription
  else
    match (docBlocks c).find? spec_isParaBlock with
    | some b =>
      let s := stripTags (spec_blockText b)
      if s.length > 200 then s.take 200 ++ "..." else s
    | none => ""

/-- The kind-tag equivalences documented by the spec's casing note:
`list` ↔ `List` and `header` ↔ `Header` (plus syntactic equality). -/
def tagVariant (a b : String) : Bool :=
  a = b ∨ (a = "list" ∧ b = "List") ∨ (a = "List" ∧ b = "list") ∨
    (a = "header" ∧ b = "Header") ∨ (a = "Header" ∧ b = "header")

/-- Entry lists of two blocks that agree except that the value at a
`type` key may be replaced by a `tagVariant` casing variant. -/
def blockEntriesVariant : List (String × Json) → List (String × Json) → Bool
  | [], [] => true
  | (k1, v1) :: t1, (k2, v2) :: t2 =>
    decide (k1 = k2)
    && (decide (v1 = v2) ||
        (decide (k1 = "type") &&
          match v1, v2 with
          | Json.str a, Json.str b => tagVariant a b
          | _, _ => false))
    && blockEntriesVariant t1 t2
  | _, _ => false

/-- Two blocks that differ at most by a documented casing variant of
their kind tag. -/
def blockVariant (b1 b2 : Json) : Bool :=
  match b1, b2 with
  | Json.obj kvs1, Json.obj kvs2 => blockEntriesVariant kvs1 kvs2
  | x, y => x = y

/-- Pointwise `blockVariant` on block sequences. -/
def blocksVariant : List Json → List Json → Bool
  | [], [] => true
  | b1 :: t1, b2 :: t2 => blockVariant b1 b2 && blocksVariant t1 t2
  | _, _ => false

/-- Top-level entry lists of two documents that agree except that the
blocks under a `blocks` key may differ by kind-tag casing variants. -/
def docEntriesVariant : List (String × Json) → List (String × Json) → Bool
  | [], [] => true
  | (k1, v1) :: t1, (k2, v2) :: t2 =>
    decide (k1 = k2)
    && (decide (v1 = v2) ||
        (decide (k1 = "blocks") &&
          match v1, v2 with
          | Json.arr xs, Json.arr ys => blocksVariant xs ys
          | _, _ => false))
    && docEntriesVariant t1 t2
  | _, _ => false

/-- Two documents that agree except that some block kind tags are
replaced by their documented casing variants. -/
def docVariant (c1 c2 : Json) : Bool :=
  match c1, c2 with
  | Json.obj kvs1, Json.obj kvs2 => docEntriesVariant kvs1 kvs2
  | x, y => x = y

/-- Little-endian base-10 digits of a natural number (empty for 0).
The value shrinks by a factor of 10 each step, so `fuel` at least the
value itself makes the fuel-exhaustion arm unreachable. -/
def toDigitsGo : Nat → Nat → List Nat
  | _, 0 => []
  | 0, _ + 1 => []
  | fuel + 1, n + 1 => (n + 1) % 10 :: toDigitsGo fuel ((n + 1) / 10)

/-- The decimal digit character for `d < 10`. -/
def digitChar10 (d : Nat) : Char :=
  match d with
  | 0 => '0' | 1 => '1' | 2 => '2' | 3 => '3' | 4 => '4'
  | 5 => '5' | 6 => '6' | 7 => '7' | 8 => '8' | _ => '9'

/-- Python `str(n)` for a nonnegative integer: its decimal rendering. -/
def natToStr (n : Nat) : String :=
  match n with
  | 0 => "0"
  | _ => String.mk (((toDigitsGo n n).reverse).map digitChar10)

/-- Numeric value of a decimal digit character (inverse of
`digitChar10`). -/
def digitVal (c : Char) : Nat :=
  match c with
  | '0' => 0 | '1' => 1 | '2' => 2 | '3' => 3 | '4' => 4
  | '5' => 5 | '6' => 6 | '7' => 7 | '8' => 8 | _ => 9

/-- Value of a big-endian decimal digit-character list. -/
def strVal (cs : List Char) : Nat :=
  cs.foldl (fun a c => a * 10 + digitVal c) 0

/-- Value of a little-endian digit list. -/
def ofDigitsLE : List Nat → Nat
  | [] => 0
  | d :: ds => d + 10 * ofDigitsLE ds

/-- Characters kept by django.utils.text.slugify after lowercasing:
the regex `[^\w\s-]` removes everything that is not a word character,
whitespace, or hyphen. -/
def slugKeep (c : Char) : Bool :=
  c.isAlpha ∨ c.isDigit ∨ c = '_' ∨ c = '-' ∨ pySpace c

/-- Collapse each maximal run of hyphens into a single hyphen (the
`[-\s]+` → `-` substitution, applied after whitespace was mapped to
hyphens). -/
def squeezeDash : List Char → List Char
  | [] => []
  | [c] => [c]
  | a :: b :: t =>
    if a = '-' ∧ b = '-' then squeezeDash (b :: t)
    else a :: squeezeDash (b :: t)

/-- A hyphen or underscore (stripped from both ends by `.strip("-_")`). -/
def isDashUnd (c : Char) : Bool := c = '-' ∨ c = '_'

/-- The framework helper `django.utils.text.slugify` (ASCII case, `allow_unicode=False`): the
NFKD/ASCII-encode step drops non-ASCII characters, the rest lowercases,
removes `[^\w\s-]`, collapses `[-\s]+` runs to single hyphens and strips
leading/trailing hyphens and underscores. -/
def slugify (s : String) : String :=
  let cs := s.data.filter (fun c => c.toNat < 128)
  let cs := cs.map Char.toLower
  let cs := cs.filter slugKeep
  let cs := cs.map (fun c => if pySpace c ∨ c = '-' then '-' else c)
  let cs := squeezeDash cs
  String.mk ((cs.dropWhile isDashUnd).reverse.dropWhile isDashUnd).reverse

/-- The `counter`-th candidate slug of the disambiguation loop in
`BlogPost.save`: the base slug itself for 0, `base-counter` otherwise. -/
def slugCand (base : String) (k : Nat) : String :=
  match k with
  | 0 => base
  | _ => base ++ "-" ++ natToStr k

/-- The `while` loop of `BlogPost.save`: as long as the current slug is
taken, try `base-counter` and bump the counter.  `fuel` bounds the
iterations; `existing.length + 1` iterations always suffice to reach a
free slug. -/
def slugWhile (existing : List String) (base : String) :
    Nat → String → Nat → String
  | 0, current, _ => current
  | fuel + 1, current, counter =>
    if current ∈ existing then
      slugWhile existing base fuel (base ++ "-" ++ natToStr counter) (counter + 1)
    else current

/-- Slug auto-generation in `BlogPost.save`: slugify the title, then
suffix `-1`, `-2`, … until the slug is not among `existing` (the slugs
of the other persisted posts). -/
def genSlug (existing : List String) (title : String) : String :=
  let base := slugify title
  slugWhile existing base (existing.length + 1) base 1

/-- A persisted blog post: the fields of `BlogPost` the verified
behaviors touch.  `pk` is `none` for an instance not yet inserted. -/
structure Post where
  pk : Option Nat
  title : String
  slug : String
  metaDescription : String
  content : Json
  status : String
  publishedAt : Option Nat
  readingTime : Nat
  viewsCount : Nat
deriving DecidableEq, Repr

/-- The query `BlogPost.objects.filter(slug=...).exclude(pk=self.pk)`: the slugs of
every stored post other than `p` itself (a fresh instance has `pk =
none`, which no stored row carries, so nothing is excluded on create). -/
def otherSlugs (db : List Post) (p : Post) : List String :=
  (db.filter (fun q => q.pk ≠ p.pk)).map (fun q => q.slug)

/-- The body of `BlogPost.save` before the database write: auto-generate
the slug when blank, stamp `published_at` when publishing for the first
time, and recompute `reading_time` (which re-raises whatever
`calculate_reading_time` raises). -/
def applySave (db : List Post) (now : Nat) (p : Post) : Except PyErr Post := do
  let p1 := if p.slug = "" then
      { p with slug := genSlug (otherSlugs db p) p.title } else p
  let p2 := if p1.status = "published" ∧ p1.publishedAt = none then
      { p1 with publishedAt := some now } else p1
  let rt ← calcReadingTime p2.content
  pure { p2 with readingTime := rt }

/-- Smallest primary key not yet used (how the ORM assigns keys on
insert; only freshness matters to the claims). -/
def freshPk (db : List Post) : Nat :=
  (db.map (fun q => q.pk.getD 0)).foldl Nat.max 0 + 1

/-- The database write of `save`: update in place when the instance has a
primary key, insert with a fresh key otherwise. -/
def persist (db : List Post) (p : Post) : List Post × Post :=
  match p.pk with
  | some k => (db.map (fun q => if q.pk = some k then p else q), p)
  | none =>
    let p2 := { p with pk := some (freshPk db) }
    (db ++ [p2], p2)

/-- A full `save()` call: derive fields, then write. -/
def createPost (db : List Post) (now : Nat) (p : Post) :
    Except PyErr (List Post × Post) := do
  let p1 ← applySave db now p
  pure (persist db p1)

/-- Responses of the blog API actions. -/
inductive ApiResp where
  | ok (p : Post)
  | badRequest (msg : String)
  | notFound
  | serverError
deriving DecidableEq, Repr

/-- Whether a response is a 4xx client error. -/
def isClientError : ApiResp → Bool
  | ApiResp.badRequest _ => true
  | ApiResp.notFound => true
  | _ => false

/-- Lookup via `get_object` through `get_queryset`: posts are looked up by slug in
the queryset that contains only published posts unless
`include_drafts=true` was passed. -/
def getObject (db : List Post) (includeDrafts : Bool) (slug : String) :
    Option Post :=
  (db.filter (fun p => includeDrafts || p.status = "published")).find?
    (fun p => p.slug = slug)

/-- The action `BlogPostViewSet.publish`: 400 when the post is already published,
otherwise set status to published, stamp `published_at` if absent, and
save. -/
def publishAction (db : List Post) (includeDrafts : Bool) (slug : String)
    (now : Nat) : ApiResp × List Post :=
  match getObject db includeDrafts slug with
  | none => (ApiResp.notFound, db)
  | some post =>
    if post.status = "published" then
      (ApiResp.badRequest "Blog post is already published", db)
    else
      let post1 := { post with status := "published" }
      let post2 := if post1.publishedAt = none then
          { post1 with publishedAt := some now } else post1
      match createPost db now post2 with
      | Except.ok (db2, p2) => (ApiResp.ok p2, db2)
      | Except.error _ => (ApiResp.serverError, db)

/-- The action `BlogPostViewSet.unpublish`: 400 when the post is already a draft,
otherwise set status to draft and save. -/
def unpublishAction (db : List Post) (includeDrafts : Bool) (slug : String)
    (now : Nat) : ApiResp × List Post :=
  match getObject db includeDrafts slug with
  | none => (ApiResp.notFound, db)
  | some post =>
    if post.status = "draft" then
      (ApiResp.badRequest "Blog post is already a draft", db)
    else
      let post1 := { post with status := "draft" }
      match createPost db now post1 with
      | Except.ok (db2, p2) => (ApiResp.ok p2, db2)
      | Except.error _ => (ApiResp.serverError, db)

/-- The method `BlogPost.increment_views`: bump the in-memory counter and call
`save(update_fields=['views_count'])` — the save pipeline runs in full
(and can raise), but only the `views_count` column is written back. -/
def incrementViews (db : List Post) (now : Nat) (p : Post) :
    Except PyErr (List Post × Post) := do
  let bumped := { p with viewsCount := p.viewsCount + 1 }
  let inMemory ← applySave db now bumped
  pure (db.map (fun q => if q.pk = p.pk then
      { q with viewsCount := bumped.viewsCount } else q), inMemory)

/-- The action `BlogPostViewSet.retrieve`: look the post up by slug, increment its
view counter, and serialize the in-memory instance. -/
def retrieveAction (db : List Post) (includeDrafts : Bool) (slug : String)
    (now : Nat) : ApiResp × List Post :=
  match getObject db includeDrafts slug with
  | none => (ApiResp.notFound, db)
  | some p =>
    match incrementViews db now p with
    | Except.ok (db2, inMemory) => (ApiResp.ok inMemory, db2)
    | Except.error _ => (ApiResp.serverError, db)

/-- The `SEOTag` fields involved in the auto-population fallback chain of
`SEOTag.save`. -/
structure SEOTag where
  pageId : String
  pagePath : String
  pageName : String
  pageTitle : String
  metaDescription : String
  ogTitle : String
  ogDescription : String
  ogUrl : String
  ogImageUrl : String
  twitterTitle : String
  twitterDescription : String
  twitterImageUrl : String
deriving DecidableEq, Repr

/-- The method `SEOTag.save`: Open-Graph fields default from the basic SEO fields
when blank, then Twitter-card fields default from the (already
defaulted) Open-Graph fields when blank. -/
def seoSave (t : SEOTag) : SEOTag :=
  let t1 := if t.ogTitle = "" then { t with ogTitle := t.pageTitle } else t
  let t2 := if t1.ogDescription = "" then
      { t1 with ogDescription := t1.metaDescription } else t1
  let t3 := if t2.ogUrl = "" then
      { t2 with ogUrl := "https://www.evall.in" ++ t2.pagePath } else t2
  let t4 := if t3.twitterTitle = "" then
      { t3 with twitterTitle := t3.ogTitle } else t3
  let t5 := if t4.twitterDescription = "" then
      { t4 with twitterDescription := t4.ogDescription } else t4
  if t5.twitterImageUrl = "" then
      { t5 with twitterImageUrl := t5.ogImageUrl } else t5

/-- Blank-fallback: `b` when `a` is blank, `a` otherwise. -/
def blankDefault (a b : String) : String := if a = "" then b else a

/-- The `AdvancedSEO` singleton's content fields. -/
structure AdvRec where
  googleSiteVerification : String
  headerScript : String
  footerScript : String
deriving DecidableEq, Repr

/-- The method `AdvancedSEO.save`: force `pk = 1`, then write (update the row with
key 1 when it exists, insert it otherwise). -/
def advSave (db : List (Nat × AdvRec)) (r : AdvRec) : List (Nat × AdvRec) :=
  if db.any (fun e => e.fst = 1) then
    db.map (fun e => if e.fst = 1 then (1, r) else e)
  else (1, r) :: db

/-- The method `AdvancedSEO.delete`: a `pass` body — the row is never removed. -/
def advDelete (db : List (Nat × AdvRec)) : List (Nat × AdvRec) := db

/-- A persistence operation on the advanced SEO settings table. -/
inductive AdvOp where
  | save (r : AdvRec)
  | del
deriving DecidableEq, Repr

/-- Apply a sequence of saves and deletes to the settings table. -/
def applyAdvOps (ops : List AdvOp) (db : List (Nat × AdvRec)) :
    List (Nat × AdvRec) :=
  match ops with
  | [] => db
  | AdvOp.save r :: t => applyAdvOps t (advSave db r)
  | AdvOp.del :: t => applyAdvOps t (advDelete db)

/-- Python `int(s)` on a string: optional surrounding whitespace, an
optional sign, then decimal digits possibly grouped by single
underscores; anything else raises `ValueError` (modelled as `none`). -/
def pyInt (s : String) : Option Int :=
  let cs := (s.data.dropWhile pySpace).reverse.dropWhile pySpace |>.reverse
  let (neg, ds) :=
    match cs with
    | '-' :: t => (true, t)
    | '+' :: t => (false, t)
    | t => (false, t)
  if ds = [] then none
  else if ds.head? = some '_' ∨ ds.getLast? = some '_' then none
  else if (ds.zip (ds.drop 1)).any (fun e => e.fst = '_' ∧ e.snd = '_') then none
  else if ds.all (fun c => c.isDigit ∨ c = '_') then
    let v : Int := Int.ofNat (strVal (ds.filter (fun c => c ≠ '_')))
    some (if neg then -v else v)
  else none

/-- The limit sanitization of `BlogPostViewSet.latest`: default 5 when
missing, replace a non-integer or non-positive value by 5. -/
def parseLimit (q : Option String) : Nat :=
  match q with
  | none => 5
  | some s =>
    match pyInt s with
    | some n => if n ≤ 0 then 5 else n.toNat
    | none => 5

/-- Sort key for `order_by('-published_at')`: unset dates sort last in
descending order. -/
def pubOrd (p : Post) : Nat :=
  match p.publishedAt with
  | none => 0
  | some t => t + 1

/-- Insert into a descending-ordered list. -/
def insertDesc (p : Post) : List Post → List Post
  | [] => [p]
  | q :: t => if pubOrd q < pubOrd p then p :: q :: t else q :: insertDesc p t

/-- Order posts by descending published date. -/
def sortDesc : List Post → List Post
  | [] => []
  | p :: t => insertDesc p (sortDesc t)

/-- The queryset of `latest`: published posts only in the default
configuration. -/
def publishedOnly (db : List Post) (includeDrafts : Bool) : List Post :=
  if includeDrafts then db else db.filter (fun p => p.status = "published")

/-- The payload of the `latest` endpoint. -/
structure LatestResp where
  count : Nat
  results : List Post
deriving DecidableEq, Repr

/-- The action `BlogPostViewSet.latest`: sanitize the limit, order the queryset by
descending published date, slice to the limit, and report the total
queryset count. -/
def latestAction (db : List Post) (includeDrafts : Bool)
    (limitParam : Option String) : LatestResp :=
  let limit := parseLimit limitParam
  { count := (publishedOnly db includeDrafts).length
    results := (sortDesc (publishedOnly db includeDrafts)).take limit }

/-! ## Helper lemmas -/

theorem jLookup_nil (k : String) : jLookup [] k = none := rfl

theorem goodItems_words {xs : List Json} (h : ∀ x ∈ xs, goodItem x = true) :
    xs.map (fun it => countWords (stripTags (pyStr it)))
      = (xs.filterMap (fun it =>
          match it with
          | Json.str s => some s
          | _ => none)).map (fun s => countWords (stripTags s)) := by
  induction xs with
  | nil => rfl
  | cons x t ih =>
    have hx : goodItem x = true := h x (by simp)
    have ht : ∀ y ∈ t, goodItem y = true := fun y hy => h y (by simp [hy])
    cases x with
    | str s =>
      exact congrArg (List.cons (countWords (stripTags s))) (ih ht)
    | null => exact absurd hx (by simp [goodItem])
    | bool b => exact absurd hx (by simp [goodItem])
    | num n => exact absurd hx (by simp [goodItem])
    | arr a => exact absurd hx (by simp [goodItem])
    | obj o => exact absurd hx (by simp [goodItem])

theorem blockWords_obj (kvs : List (String × Json)) :
    blockWords (Json.obj kvs) =
      (let t := (jLookup kvs "type").getD Json.null
       if t = Json.str "paragraph" ∨ t = Json.str "header" ∨
           t = Json.str "quote" ∨ t = Json.str "Header" then do
         let data ← pyGet (Json.obj kvs) "data" (Json.obj [])
         let text ← pyGet data "text" (Json.str "")
         let s ← asStr text
         pure (countWords (stripTags s))
       else if t = Json.str "list" ∨ t = Json.str "List" then do
         let data ← pyGet (Json.obj kvs) "data" (Json.obj [])
         let items ← pyGet data "items" (Json.arr [])
         let xs ← pyIter items
         pure ((xs.map (fun it => countWords (stripTags (pyStr it)))).sum)
       else Except.ok 0) := rfl

theorem getD_null_str {o : Option Json} {t : String}
    (h : o.getD Json.null = Json.str t) : o = some (Json.str t) := by
  cases o <;> simp_all

theorem textKind_str {t0 : Json}
    (h : t0 = Json.str "paragraph" ∨ t0 = Json.str "header" ∨
      t0 = Json.str "quote" ∨ t0 = Json.str "Header") :
    ∃ t, t0 = Json.str t ∧ spec_isTextKind t = true := by
  rcases h with h | h | h | h <;> exact ⟨_, h, by decide⟩

theorem listKind_str {t0 : Json}
    (h : t0 = Json.str "list" ∨ t0 = Json.str "List") :
    ∃ t, t0 = Json.str t ∧ spec_isListKind t = true := by
  rcases h with h | h <;> exact ⟨_, h, by decide⟩

theorem textKind_not_listKind {t : String} (h : spec_isTextKind t = true) :
    spec_isListKind t = false := by
  simp only [spec_isTextKind, decide_eq_true_eq] at h
  rcases h with h | h | h | h <;> simp [h, spec_isListKind]

theorem goodBlock_blockWords {b : Json} (hb : goodBlock b = true) :
    blockWords b = Except.ok (spec_blockWordCount b) := by
  cases b with
  | null => exact absurd hb (by simp [goodBlock])
  | bool x => exact absurd hb (by simp [goodBlock])
  | num x => exact absurd hb (by simp [goodBlock])
  | str x => exact absurd hb (by simp [goodBlock])
  | arr x => exact absurd hb (by simp [goodBlock])
  | obj kvs =>
    simp only [goodBlock] at hb
    rw [blockWords_obj]
    by_cases hP1 : (jLookup kvs "type").getD Json.null = Json.str "paragraph" ∨
        (jLookup kvs "type").getD Json.null = Json.str "header" ∨
        (jLookup kvs "type").getD Json.null = Json.str "quote" ∨
        (jLookup kvs "type").getD Json.null = Json.str "Header"
    · obtain ⟨t, ht0, htk⟩ := textKind_str hP1
      have htype : jLookup kvs "type" = some (Json.str t) := getD_null_str ht0
      rw [if_pos hP1]
      simp only [spec_blockWordCount, spec_blockKind, htype]
      rw [if_pos htk]
      rcases hdata : jLookup kvs "data" with _ | dv
      · simp [bind, Except.bind, pyGet, hdata, jLookup_nil, asStr,
          spec_blockText, pure, Except.pure]
      · rw [hdata] at hb
        cases dv with
        | obj dkvs =>
          simp only [Bool.and_eq_true] at hb
          obtain ⟨hbt, _⟩ := hb
          rcases htext : jLookup dkvs "text" with _ | txv
          · simp [bind, Except.bind, pyGet, hdata, htext, asStr,
              spec_blockText, pure, Except.pure]
          · rw [htext] at hbt
            cases txv with
            | str s =>
              simp [bind, Except.bind, pyGet, hdata, htext, asStr,
                spec_blockText, pure, Except.pure]
            | null => simp at hbt
            | bool x => simp at hbt
            | num x => simp at hbt
            | arr x => simp at hbt
            | obj x => simp at hbt
        | null => simp at hb
        | bool x => simp at hb
        | num x => simp at hb
        | str x => simp at hb
        | arr x => simp at hb
    · rw [if_neg hP1]
      by_cases hP2 : (jLookup kvs "type").getD Json.null = Json.str "list" ∨
          (jLookup kvs "type").getD Json.null = Json.str "List"
      · obtain ⟨t, ht0, htk⟩ := listKind_str hP2
        have htype : jLookup kvs "type" = some (Json.str t) := getD_null_str ht0
        have htkF : spec_isTextKind t = false := by
          rcases hP2 with h | h <;>
            · rw [htype] at h
              simp only [Option.getD_some, Json.str.injEq] at h
              subst h
              decide
        rw [if_pos hP2]
        simp only [spec_blockWordCount, spec_blockKind, htype]
        rw [if_neg (by simp [htkF]), if_pos htk]
        rcases hdata : jLookup kvs "data" with _ | dv
        · simp [bind, Except.bind, pyGet, hdata, jLookup_nil, pyIter,
            spec_blockItems, pure, Except.pure]
        · rw [hdata] at hb
          cases dv with
          | obj dkvs =>
            simp only [Bool.and_eq_true] at hb
            obtain ⟨_, hbi⟩ := hb
            rcases hitems : jLookup dkvs "items" with _ | itv
            · simp [bind, Except.bind, pyGet, hdata, hitems, pyIter,
                spec_blockItems, pure, Except.pure]
            · rw [hitems] at hbi
              cases itv with
              | arr xs =>
                have hall : ∀ x ∈ xs, goodItem x = true := by
                  simpa [List.all_eq_true] using hbi
                simp [bind, Except.bind, pyGet, hdata, hitems, pyIter,
                  spec_blockItems, goodItems_words hall, pure, Except.pure]
              | null => simp at hbi
              | bool x => simp at hbi
              | num x => simp at hbi
              | str x => simp at hbi
              | obj x => simp at hbi
          | null => simp at hb
          | bool x => simp at hb
          | num x => simp at hb
          | str x => simp at hb
          | arr x => simp at hb
      · rw [if_neg hP2]
        rcases htype : jLookup kvs "type" with _ | tv
        · simp [spec_blockWordCount, spec_blockKind, htype]
        · cases tv with
          | str t =>
            rw [htype] at hP1 hP2
            simp only [Option.getD_some, Json.str.injEq] at hP1 hP2
            push_neg at hP1 hP2
            obtain ⟨n1, n2, n3, n4⟩ := hP1
            obtain ⟨n5, n6⟩ := hP2
            simp [spec_blockWordCount, spec_blockKind, htype,
              spec_isTextKind, spec_isListKind, n1, n2, n3, n4, n5, n6]
          | null => simp [spec_blockWordCount, spec_blockKind, htype]
          | bool x => simp [spec_blockWordCount, spec_blockKind, htype]
          | num x => simp [spec_blockWordCount, spec_blockKind, htype]
          | arr x => simp [spec_blockWordCount, spec_blockKind, htype]
          | obj x => simp [spec_blockWordCount, spec_blockKind, htype]

theorem sumBlockWords_good {bs : List Json} (h : ∀ b ∈ bs, goodBlock b = true) :
    sumBlockWords bs = Except.ok ((bs.map spec_blockWordCount).sum) := by
  induction bs with
  | nil => rfl
  | cons b t ih =>
    have hb : goodBlock b = true := h b (by simp)
    have ht : ∀ x ∈ t, goodBlock x = true := fun x hx => h x (by simp [hx])
    simp [sumBlockWords, goodBlock_blockWords hb, ih ht, bind, Except.bind,
      pure, Except.pure]

theorem docBlocks_falsy {c : Json} (h : isFalsy c = true) : docBlocks c = [] := by
  cases c with
  | obj kvs =>
    simp only [isFalsy, List.isEmpty_iff] at h
    subst h
    simp [docBlocks, jLookup_nil]
  | null => rfl
  | bool b => rfl
  | num n => rfl
  | str s => rfl
  | arr xs => rfl

theorem pyRound200_nearest (n m : Nat) :
    ((200 * (pyRound200 n : Int)) - n).natAbs ≤ ((200 * (m : Int)) - n).natAbs := by
  have hdm : 200 * (n / 200) + n % 200 = n := Nat.div_add_mod n 200
  have hlt : n % 200 < 200 := Nat.mod_lt n (by omega)
  unfold pyRound200
  split_ifs with h1 h2 h3 <;> omega

theorem calcReadingTime_eq_spec (c : Json) (hw : wellShaped c = true) :
    calcReadingTime c = Except.ok (spec_readingTime c) := by
  cases c with
  | null => rfl
  | bool b => cases b <;> rfl
  | num n =>
    simp [calcReadingTime, spec_readingTime, spec_wordCount, docBlocks, pyRound200]
  | str s =>
    simp [calcReadingTime, spec_readingTime, spec_wordCount, docBlocks, pyRound200]
  | arr xs =>
    simp [calcReadingTime, spec_readingTime, spec_wordCount, docBlocks, pyRound200]
  | obj kvs =>
    by_cases hf : isFalsy (Json.obj kvs) = true
    · have hb0 : docBlocks (Json.obj kvs) = [] := docBlocks_falsy hf
      simp [calcReadingTime, hf, spec_readingTime, spec_wordCount, hb0, pyRound200]
    · simp only [calcReadingTime, if_neg hf]
      rcases hbl : jLookup kvs "blocks" with _ | bv
      · simp [spec_readingTime, spec_wordCount, docBlocks, hbl]
      · simp only [wellShaped, hbl] at hw
        cases bv with
        | arr bs =>
          have hall : ∀ b ∈ bs, goodBlock b = true := by
            simpa [List.all_eq_true] using hw
          simp [pyIter, sumBlockWords_good hall, bind, Except.bind,
            pure, Except.pure, spec_readingTime, spec_wordCount, docBlocks, hbl]
        | null => simp at hw
        | bool x => simp at hw
        | num x => simp at hw
        | str x => simp at hw
        | obj x => simp at hw

/-- C1 (amended to well-shaped documents): for every well-shaped
document, `calculate_reading_time` returns the total word count of the
paragraph/header/quote/list blocks (list items counted individually,
every other kind contributing zero, markup tags stripped before
whitespace splitting) divided by 200 and rounded to the nearest integer
(`pyRound200`, ties to even as Python's `round`), floored at 1; and
`pyRound200` is indeed a nearest integer to `n / 200`.  Outside the
well-shaped domain the code diverges from the formula: see the
counterexample. -/
theorem C1_reading_time :
    (∀ c, wellShaped c = true →
      calcReadingTime c = Except.ok (spec_readingTime c)) ∧
    (∀ n m : Nat,
      ((200 * (pyRound200 n : Int)) - n).natAbs ≤ ((200 * (m : Int)) - n).natAbs) :=
  ⟨calcReadingTime_eq_spec, pyRound200_nearest⟩

/-- Witness for C1 at the spec's own scenario document (a 1-word header
plus a list with items of 3 and 2 words: 6 words, reading time 1). -/
theorem C1_reading_time_witness :
    wellShaped (Json.obj [("blocks", Json.arr [
        Json.obj [("type", Json.str "header"),
          ("data", Json.obj [("text", Json.str "Intro")])],
        Json.obj [("type", Json.str "list"),
          ("data", Json.obj [("items",
            Json.arr [Json.str "one two three", Json.str "four five"])])]])])
      = true ∧
    calcReadingTime (Json.obj [("blocks", Json.arr [
        Json.obj [("type", Json.str "header"),
          ("data", Json.obj [("text", Json.str "Intro")])],
        Json.obj [("type", Json.str "list"),
          ("data", Json.obj [("items",
            Json.arr [Json.str "one two three", Json.str "four five"])])]])])
      = Except.ok 1 := by
  refine ⟨by decide, ?_⟩
  rw [C1_reading_time.1 _ (by decide)]
  rfl

set_option maxRecDepth 100000 in
/-- Counterexample to C1 as stated: outside the well-shaped document
domain the code does not compute the claimed formula.  A blocks array
holding a non-object element makes `calculate_reading_time` raise
`AttributeError` where the formula gives 1; and a list block whose
items are 300 numbers is counted through Python `str(item)` as 300
words (reading time 2) where the formula, which sums the word counts of
the item texts, counts none (reading time 1). -/
theorem C1_reading_time_counterexample :
    (calcReadingTime (Json.obj [("blocks", Json.arr [Json.num 42])])
       = Except.error PyErr.attributeError ∧
     spec_readingTime (Json.obj [("blocks", Json.arr [Json.num 42])]) = 1) ∧
    (calcReadingTime (Json.obj [("blocks", Json.arr [
        Json.obj [("type", Json.str "list"),
          ("data", Json.obj [("items",
            Json.arr (List.replicate 300 (Json.num 7)))])]])])
       = Except.ok 2 ∧
     spec_readingTime (Json.obj [("blocks", Json.arr [
        Json.obj [("type", Json.str "list"),
          ("data", Json.obj [("items",
            Json.arr (List.replicate 300 (Json.num 7)))])]])])
       = 1) :=
  ⟨⟨rfl, rfl⟩, ⟨rfl, rfl⟩⟩

/-- C2 (code bug): the reading-time computation returns a value `≥ 1` on
every well-shaped document — absent, non-object, without `blocks`, or
with blocks lacking `text`/`items` — but it is not total over arbitrary
documents: a `blocks` array containing a non-dict element makes
`block.get('type')` raise `AttributeError`, contradicting the spec's
"this function is total: it never fails". -/
theorem C2_reading_time_totality :
    (∀ c, wellShaped c = true →
      ∃ r, calcReadingTime c = Except.ok r ∧ 1 ≤ r) ∧
    calcReadingTime (Json.obj [("blocks", Json.arr [Json.num 42])])
      = Except.error PyErr.attributeError := by
  constructor
  · intro c hw
    exact ⟨spec_readingTime c, calcReadingTime_eq_spec c hw, le_max_left 1 _⟩
  · rfl

/-- Witness for C2's totality half at an absent document. -/
theorem C2_reading_time_totality_witness :
    ∃ r, calcReadingTime Json.null = Except.ok r ∧ 1 ≤ r :=
  C2_reading_time_totality.1 Json.null (by decide)

theorem isParaBlock_obj (kvs : List (String × Json)) :
    spec_isParaBlock (Json.obj kvs) = true ↔
      (jLookup kvs "type").getD Json.null = Json.str "paragraph" := by
  simp only [spec_isParaBlock, spec_blockKind, decide_eq_true_eq]
  rcases h : jLookup kvs "type" with _ | v
  · simp
  · cases v <;> simp

theorem firstParagraph_good {bs : List Json}
    (h : ∀ b ∈ bs, goodBlock b = true) :
    firstParagraph bs = Except.ok ((bs.find? spec_isParaBlock).map (fun b =>
      if (stripTags (spec_blockText b)).length > 200 then
        (stripTags (spec_blockText b)).take 200 ++ "..."
      else stripTags (spec_blockText b))) := by
  induction bs with
  | nil => rfl
  | cons b t ih =>
    have hb : goodBlock b = true := h b (by simp)
    have ht : ∀ x ∈ t, goodBlock x = true := fun x hx => h x (by simp [hx])
    cases b with
    | null => exact absurd hb (by simp [goodBlock])
    | bool x => exact absurd hb (by simp [goodBlock])
    | num x => exact absurd hb (by simp [goodBlock])
    | str x => exact absurd hb (by simp [goodBlock])
    | arr x => exact absurd hb (by simp [goodBlock])
    | obj kvs =>
      simp only [goodBlock] at hb
      by_cases hP : (jLookup kvs "type").getD Json.null = Json.str "paragraph"
      · have htype : jLookup kvs "type" = some (Json.str "paragraph") :=
          getD_null_str hP
        have hpara : spec_isParaBlock (Json.obj kvs) = true :=
          (isParaBlock_obj kvs).2 hP
        rw [List.find?_cons_of_pos _ hpara]
        rcases hdata : jLookup kvs "data" with _ | dv
        · simp [firstParagraph, bind, Except.bind, pyGet, htype, hdata,
            jLookup_nil, asStr, spec_blockText, pure, Except.pure]
        · rw [hdata] at hb
          cases dv with
          | obj dkvs =>
            simp only [Bool.and_eq_true] at hb
            obtain ⟨hbt, _⟩ := hb
            rcases htext : jLookup dkvs "text" with _ | txv
            · simp [firstParagraph, bind, Except.bind, pyGet, htype, hdata,
                htext, asStr, spec_blockText, pure, Except.pure]
            · rw [htext] at hbt
              cases txv with
              | str sx =>
                simp [firstParagraph, bind, Except.bind, pyGet, htype, hdata,
                  htext, asStr, spec_blockText, pure, Except.pure]
              | null => simp at hbt
              | bool x => simp at hbt
              | num x => simp at hbt
              | arr x => simp at hbt
              | obj x => simp at hbt
          | null => simp at hb
          | bool x => simp at hb
          | num x => simp at hb
          | str x => simp at hb
          | arr x => simp at hb
      · have hpara : ¬ spec_isParaBlock (Json.obj kvs) = true := by
          rw [isParaBlock_obj]
          exact hP
        rw [List.find?_cons_of_neg _ hpara]
        rcases htype : jLookup kvs "type" with _ | tv
        · rw [htype] at hP
          simp only [Option.getD_none] at hP
          simp [firstParagraph, bind, Except.bind, pyGet, htype,
            if_neg (by simp : ¬ (Json.null = Json.str "paragraph")), ih ht]
        · rw [htype] at hP
          simp only [Option.getD_some] at hP
          simp [firstParagraph, bind, Except.bind, pyGet, htype,
            if_neg hP, ih ht]

theorem getExcerpt_eq_spec (md : String) (c : Json) (hw : wellShaped c = true) :
    getExcerpt md c = Except.ok (spec_excerpt md c) := by
  by_cases hmd : md = ""
  · subst hmd
    cases c with
    | null => rfl
    | bool b => rfl
    | num n => rfl
    | str s => rfl
    | arr xs => rfl
    | obj kvs =>
      have h1 : getExcerpt "" (Json.obj kvs) =
          (if isFalsy (Json.obj kvs) = true then Except.ok ""
           else do
             let bs ← pyIter ((jLookup kvs "blocks").getD (Json.arr []))
             let r ← firstParagraph bs
             pure (r.getD "")) := rfl
      have h2 : spec_excerpt "" (Json.obj kvs) =
          (match (docBlocks (Json.obj kvs)).find? spec_isParaBlock with
           | some b =>
             if (stripTags (spec_blockText b)).length > 200 then
               (stripTags (spec_blockText b)).take 200 ++ "..."
             else stripTags (spec_blockText b)
           | none => "") := rfl
      rw [h1, h2]
      by_cases hf : isFalsy (Json.obj kvs) = true
      · rw [if_pos hf, docBlocks_falsy hf]
        simp
      · rw [if_neg hf]
        rcases hbl : jLookup kvs "blocks" with _ | bv
        · simp [hbl, pyIter, firstParagraph, bind, Except.bind, pure,
            Except.pure, docBlocks]
        · simp only [wellShaped, hbl] at hw
          cases bv with
          | arr bs =>
            have hall : ∀ b ∈ bs, goodBlock b = true := by
              simpa [List.all_eq_true] using hw
            simp only [hbl, Option.getD_some, pyIter, bind, Except.bind,
              firstParagraph_good hall, docBlocks]
            cases hfind : bs.find? spec_isParaBlock with
            | none => simp [pure, Except.pure]
            | some b => simp [pure, Except.pure]
          | null => simp at hw
          | bool x => simp at hw
          | num x => simp at hw
          | str x => simp at hw
          | obj x => simp at hw
  · simp [getExcerpt, spec_excerpt, hmd]

/-- C4 (amended to well-shaped documents): the excerpt equals the
explicit description when non-empty; otherwise the tag-stripped text of
the first `paragraph` block truncated to 200 characters with an ellipsis
appended iff longer than 200; otherwise the empty string — without
raising on any well-shaped document. -/
theorem C4_excerpt :
    ∀ md c, wellShaped c = true →
      getExcerpt md c = Except.ok (spec_excerpt md c) :=
  getExcerpt_eq_spec

/-- Counterexample to C4 as stated: a document whose blocks array holds a
non-dict element has no paragraph block, yet `get_excerpt` raises
`AttributeError` instead of returning the empty string. -/
theorem C4_excerpt_counterexample :
    getExcerpt "" (Json.obj [("blocks", Json.arr [Json.num 1])])
      = Except.error PyErr.attributeError := rfl

set_option maxRecDepth 100000 in
/-- Witness for C4: a 201-character paragraph is truncated to 200
characters plus an ellipsis. -/
theorem C4_excerpt_witness :
    getExcerpt "" (Json.obj [("blocks", Json.arr [
        Json.obj [("type", Json.str "paragraph"),
          ("data", Json.obj [("text",
            Json.str (String.mk (List.replicate 201 'a')))])]])])
      = Except.ok (String.mk (List.replicate 200 'a') ++ "...") := by
  rw [C4_excerpt "" _ (by decide)]
  rfl

theorem jLookup_cons (k1 : String) (v1 : Json) (t : List (String × Json))
    (k : String) :
    jLookup ((k1, v1) :: t) k = if k1 = k then some v1 else jLookup t k := by
  simp only [jLookup, List.find?_cons]
  split_ifs with h
  · simp [h]
  · simp [h]

theorem tagVariant_textKind {a b : String} (h : tagVariant a b = true) :
    (a = "paragraph" ∨ a = "header" ∨ a = "quote" ∨ a = "Header") ↔
    (b = "paragraph" ∨ b = "header" ∨ b = "quote" ∨ b = "Header") := by
  simp only [tagVariant, decide_eq_true_eq] at h
  rcases h with h | ⟨h1, h2⟩ | ⟨h1, h2⟩ | ⟨h1, h2⟩ | ⟨h1, h2⟩
  · rw [h]
  · subst h1; subst h2; decide
  · subst h1; subst h2; decide
  · subst h1; subst h2; decide
  · subst h1; subst h2; decide

theorem tagVariant_listKind {a b : String} (h : tagVariant a b = true) :
    (a = "list" ∨ a = "List") ↔ (b = "list" ∨ b = "List") := by
  simp only [tagVariant, decide_eq_true_eq] at h
  rcases h with h | ⟨h1, h2⟩ | ⟨h1, h2⟩ | ⟨h1, h2⟩ | ⟨h1, h2⟩
  · rw [h]
  · subst h1; subst h2; decide
  · subst h1; subst h2; decide
  · subst h1; subst h2; decide
  · subst h1; subst h2; decide

theorem tagVariant_para {a b : String} (h : tagVariant a b = true) :
    (a = "paragraph") ↔ (b = "paragraph") := by
  simp only [tagVariant, decide_eq_true_eq] at h
  rcases h with h | ⟨h1, h2⟩ | ⟨h1, h2⟩ | ⟨h1, h2⟩ | ⟨h1, h2⟩
  · rw [h]
  · subst h1; subst h2; decide
  · subst h1; subst h2; decide
  · subst h1; subst h2; decide
  · subst h1; subst h2; decide

theorem blockEntriesVariant_lookup {kvs1 kvs2 : List (String × Json)}
    (h : blockEntriesVariant kvs1 kvs2 = true) :
    (∀ k, k ≠ "type" → jLookup kvs1 k = jLookup kvs2 k) ∧
    (jLookup kvs1 "type" = jLookup kvs2 "type" ∨
      ∃ a b, jLookup kvs1 "type" = some (Json.str a) ∧
        jLookup kvs2 "type" = some (Json.str b) ∧ tagVariant a b = true) := by
  induction kvs1 generalizing kvs2 with
  | nil =>
    cases kvs2 with
    | nil => exact ⟨fun k _ => rfl, Or.inl rfl⟩
    | cons e t => simp [blockEntriesVariant] at h
  | cons e1 t1 ih =>
    obtain ⟨k1, v1⟩ := e1
    cases kvs2 with
    | nil => simp [blockEntriesVariant] at h
    | cons e2 t2 =>
      obtain ⟨k2, v2⟩ := e2
      simp only [blockEntriesVariant, Bool.and_eq_true, decide_eq_true_eq] at h
      obtain ⟨⟨hk, hv⟩, ht⟩ := h
      subst hk
      simp only [Bool.or_eq_true, Bool.and_eq_true, decide_eq_true_eq] at hv
      obtain ⟨ihA, ihB⟩ := ih ht
      constructor
      · intro k hkne
        rw [jLookup_cons, jLookup_cons]
        split_ifs with he
        · subst he
          rcases hv with h1 | ⟨h2, _⟩
          · rw [h1]
          · exact absurd h2 hkne
        · exact ihA k hkne
      · rw [jLookup_cons, jLookup_cons]
        split_ifs with he
        · rcases hv with h1 | ⟨h2, hm⟩
          · rw [h1]
            exact Or.inl rfl
          · 
            cases v1 with
            | str a =>
              cases v2 with
              | str b => exact Or.inr ⟨a, b, rfl, rfl, hm⟩
              | null => simp at hm
              | bool x => simp at hm
              | num x => simp at hm
              | arr x => simp at hm
              | obj x => simp at hm
            | null => simp at hm
            | bool x => simp at hm
            | num x => simp at hm
            | arr x => simp at hm
            | obj x => simp at hm
        · exact ihB

theorem blockWords_obj2 (kvs : List (String × Json)) :
    blockWords (Json.obj kvs) =
      (if (jLookup kvs "type").getD Json.null = Json.str "paragraph" ∨
          (jLookup kvs "type").getD Json.null = Json.str "header" ∨
          (jLookup kvs "type").getD Json.null = Json.str "quote" ∨
          (jLookup kvs "type").getD Json.null = Json.str "Header" then do
         let text ← pyGet ((jLookup kvs "data").getD (Json.obj []))
           "text" (Json.str "")
         let s ← asStr text
         pure (countWords (stripTags s))
       else if (jLookup kvs "type").getD Json.null = Json.str "list" ∨
          (jLookup kvs "type").getD Json.null = Json.str "List" then do
         let items ← pyGet ((jLookup kvs "data").getD (Json.obj []))
           "items" (Json.arr [])
         let xs ← pyIter items
         pure ((xs.map (fun it => countWords (stripTags (pyStr it)))).sum)
       else Except.ok 0) := rfl

theorem blockWords_variant {b1 b2 : Json} (h : blockVariant b1 b2 = true) :
    blockWords b1 = blockWords b2 := by
  cases b1 with
  | obj kvs1 =>
    cases b2 with
    | obj kvs2 =>
      simp only [blockVariant] at h
      obtain ⟨hOther, hType⟩ := blockEntriesVariant_lookup h
      have hd : jLookup kvs1 "data" = jLookup kvs2 "data" :=
        hOther "data" (by decide)
      rw [blockWords_obj2, blockWords_obj2, hd]
      rcases hType with heq | ⟨a, b, h1, h2, htv⟩
      · rw [heq]
      · rw [h1, h2]
        simp only [Option.getD_some]
        by_cases hA : (Json.str a = Json.str "paragraph" ∨
            Json.str a = Json.str "header" ∨ Json.str a = Json.str "quote" ∨
            Json.str a = Json.str "Header")
        · have hA' : a = "paragraph" ∨ a = "header" ∨ a = "quote" ∨
              a = "Header" := by simpa using hA
          have hB' := (tagVariant_textKind htv).1 hA'
          have hBt : Json.str b = Json.str "paragraph" ∨
              Json.str b = Json.str "header" ∨ Json.str b = Json.str "quote" ∨
              Json.str b = Json.str "Header" := by simpa using hB'
          rw [if_pos hA, if_pos hBt]
        · have hA' : ¬ (a = "paragraph" ∨ a = "header" ∨ a = "quote" ∨
              a = "Header") := fun hc => hA (by simpa using hc)
          have hB' : ¬ (b = "paragraph" ∨ b = "header" ∨ b = "quote" ∨
              b = "Header") := fun hc => hA' ((tagVariant_textKind htv).2 hc)
          have hBt : ¬ (Json.str b = Json.str "paragraph" ∨
              Json.str b = Json.str "header" ∨ Json.str b = Json.str "quote" ∨
              Json.str b = Json.str "Header") := fun hc => hB' (by simpa using hc)
          rw [if_neg hA, if_neg hBt]
          by_cases hL : (Json.str a = Json.str "list" ∨
              Json.str a = Json.str "List")
          · have hL' : a = "list" ∨ a = "List" := by simpa using hL
            have hM' := (tagVariant_listKind htv).1 hL'
            have hMt : Json.str b = Json.str "list" ∨
                Json.str b = Json.str "List" := by simpa using hM'
            rw [if_pos hL, if_pos hMt]
          · have hL' : ¬ (a = "list" ∨ a = "List") := fun hc => hL (by simpa using hc)
            have hM' : ¬ (b = "list" ∨ b = "List") :=
              fun hc => hL' ((tagVariant_listKind htv).2 hc)
            have hMt : ¬ (Json.str b = Json.str "list" ∨
                Json.str b = Json.str "List") := fun hc => hM' (by simpa using hc)
            rw [if_neg hL, if_neg hMt]
    | null => simp only [blockVariant, decide_eq_true_eq] at h; rw [h]
    | bool x => simp only [blockVariant, decide_eq_true_eq] at h; rw [h]
    | num x => simp only [blockVariant, decide_eq_true_eq] at h; rw [h]
    | str x => simp only [blockVariant, decide_eq_true_eq] at h; rw [h]
    | arr x => simp only [blockVariant, decide_eq_true_eq] at h; rw [h]
  | null => simp only [blockVariant, decide_eq_true_eq] at h; rw [h]
  | bool x => simp only [blockVariant, decide_eq_true_eq] at h; rw [h]
  | num x => simp only [blockVariant, decide_eq_true_eq] at h; rw [h]
  | str x => simp only [blockVariant, decide_eq_true_eq] at h; rw [h]
  | arr x => simp only [blockVariant, decide_eq_true_eq] at h; rw [h]

theorem sumBlockWords_variant {bs1 bs2 : List Json}
    (h : blocksVariant bs1 bs2 = true) :
    sumBlockWords bs1 = sumBlockWords bs2 := by
  induction bs1 generalizing bs2 with
  | nil =>
    cases bs2 with
    | nil => rfl
    | cons b t => simp [blocksVariant] at h
  | cons b1 t1 ih =>
    cases bs2 with
    | nil => simp [blocksVariant] at h
    | cons b2 t2 =>
      simp only [blocksVariant, Bool.and_eq_true] at h
      obtain ⟨hb, ht⟩ := h
      simp only [sumBlockWords, blockWords_variant hb, ih ht]

theorem firstParagraph_cons_obj (kvs : List (String × Json)) (t : List Json) :
    firstParagraph (Json.obj kvs :: t) =
      (if (jLookup kvs "type").getD Json.null = Json.str "paragraph" then do
         let text ← pyGet ((jLookup kvs "data").getD (Json.obj []))
           "text" (Json.str "")
         let s ← asStr text
         pure (some (if (stripTags s).length > 200 then
           (stripTags s).take 200 ++ "..." else stripTags s))
       else firstParagraph t) := rfl

theorem firstParagraph_variant {bs1 bs2 : List Json}
    (h : blocksVariant bs1 bs2 = true) :
    firstParagraph bs1 = firstParagraph bs2 := by
  induction bs1 generalizing bs2 with
  | nil =>
    cases bs2 with
    | nil => rfl
    | cons b t => simp [blocksVariant] at h
  | cons b1 t1 ih =>
    cases bs2 with
    | nil => simp [blocksVariant] at h
    | cons b2 t2 =>
      simp only [blocksVariant, Bool.and_eq_true] at h
      obtain ⟨hb, ht⟩ := h
      cases b1 with
      | obj kvs1 =>
        cases b2 with
        | obj kvs2 =>
          simp only [blockVariant] at hb
          obtain ⟨hOther, hType⟩ := blockEntriesVariant_lookup hb
          have hd : jLookup kvs1 "data" = jLookup kvs2 "data" :=
            hOther "data" (by decide)
          rw [firstParagraph_cons_obj, firstParagraph_cons_obj, hd]
          rcases hType with heq | ⟨a, b, h1, h2, htv⟩
          · rw [heq]
            by_cases hc : (jLookup kvs2 "type").getD Json.null
                = Json.str "paragraph"
            · rw [if_pos hc, if_pos hc]
            · rw [if_neg hc, if_neg hc]
              exact ih ht
          · rw [h1, h2]
            simp only [Option.getD_some]
            by_cases hpa : Json.str a = Json.str "paragraph"
            · have hpb : Json.str b = Json.str "paragraph" := by
                have := (tagVariant_para htv).1 (by simpa using hpa)
                simp [this]
              rw [if_pos hpa, if_pos hpb]
            · have hpb : ¬ Json.str b = Json.str "paragraph" := by
                intro hc
                exact hpa (by simp [(tagVariant_para htv).2 (by simpa using hc)])
              rw [if_neg hpa, if_neg hpb]
              exact ih ht
        | null =>
          simp only [blockVariant, decide_eq_true_eq] at hb
          exact Json.noConfusion hb
        | bool x =>
          simp only [blockVariant, decide_eq_true_eq] at hb
          exact Json.noConfusion hb
        | num x =>
          simp only [blockVariant, decide_eq_true_eq] at hb
          exact Json.noConfusion hb
        | str x =>
          simp only [blockVariant, decide_eq_true_eq] at hb
          exact Json.noConfusion hb
        | arr x =>
          simp only [blockVariant, decide_eq_true_eq] at hb
          exact Json.noConfusion hb
      | null =>
        simp only [blockVariant, decide_eq_true_eq] at hb
        subst hb
        rfl
      | bool x =>
        simp only [blockVariant, decide_eq_true_eq] at hb
        subst hb
        rfl
      | num x =>
        simp only [blockVariant, decide_eq_true_eq] at hb
        subst hb
        rfl
      | str x =>
        simp only [blockVariant, decide_eq_true_eq] at hb
        subst hb
        rfl
      | arr x =>
        simp only [blockVariant, decide_eq_true_eq] at hb
        subst hb
        rfl

theorem docEntriesVariant_lookup {kvs1 kvs2 : List (String × Json)}
    (h : docEntriesVariant kvs1 kvs2 = true) :
    (∀ k, k ≠ "blocks" → jLookup kvs1 k = jLookup kvs2 k) ∧
    (jLookup kvs1 "blocks" = jLookup kvs2 "blocks" ∨
      ∃ xs ys, jLookup kvs1 "blocks" = some (Json.arr xs) ∧
        jLookup kvs2 "blocks" = some (Json.arr ys) ∧
        blocksVariant xs ys = true) := by
  induction kvs1 generalizing kvs2 with
  | nil =>
    cases kvs2 with
    | nil => exact ⟨fun k _ => rfl, Or.inl rfl⟩
    | cons e t => simp [docEntriesVariant] at h
  | cons e1 t1 ih =>
    obtain ⟨k1, v1⟩ := e1
    cases kvs2 with
    | nil => simp [docEntriesVariant] at h
    | cons e2 t2 =>
      obtain ⟨k2, v2⟩ := e2
      simp only [docEntriesVariant, Bool.and_eq_true, decide_eq_true_eq] at h
      obtain ⟨⟨hk, hv⟩, ht⟩ := h
      subst hk
      simp only [Bool.or_eq_true, Bool.and_eq_true, decide_eq_true_eq] at hv
      obtain ⟨ihA, ihB⟩ := ih ht
      constructor
      · intro k hkne
        rw [jLookup_cons, jLookup_cons]
        split_ifs with he
        · subst he
          rcases hv with h1 | ⟨h2, _⟩
          · rw [h1]
          · exact absurd h2 hkne
        · exact ihA k hkne
      · rw [jLookup_cons, jLookup_cons]
        split_ifs with he
        · rcases hv with h1 | ⟨h2, hm⟩
          · rw [h1]
            exact Or.inl rfl
          · cases v1 with
            | arr xs =>
              cases v2 with
              | arr ys => exact Or.inr ⟨xs, ys, rfl, rfl, hm⟩
              | null => simp at hm
              | bool x => simp at hm
              | num x => simp at hm
              | str x => simp at hm
              | obj x => simp at hm
            | null => simp at hm
            | bool x => simp at hm
            | num x => simp at hm
            | str x => simp at hm
            | obj x => simp at hm
        · exact ihB

theorem docEntriesVariant_isEmpty {kvs1 kvs2 : List (String × Json)}
    (h : docEntriesVariant kvs1 kvs2 = true) :
    kvs1.isEmpty = kvs2.isEmpty := by
  cases kvs1 with
  | nil =>
    cases kvs2 with
    | nil => rfl
    | cons e t => simp [docEntriesVariant] at h
  | cons e1 t1 =>
    cases kvs2 with
    | nil => simp [docEntriesVariant] at h
    | cons e2 t2 => rfl

theorem calcReadingTime_obj (kvs : List (String × Json)) :
    calcReadingTime (Json.obj kvs) =
      (if isFalsy (Json.obj kvs) = true then Except.ok 1
       else
         match jLookup kvs "blocks" with
         | some blocks => do
             let bs ← pyIter blocks
             let wc ← sumBlockWords bs
             pure (max 1 (pyRound200 wc))
         | none => Except.ok (max 1 (pyRound200 0))) := rfl

theorem getExcerpt_obj (kvs : List (String × Json)) :
    getExcerpt "" (Json.obj kvs) =
      (if isFalsy (Json.obj kvs) = true then Except.ok ""
       else do
         let bs ← pyIter ((jLookup kvs "blocks").getD (Json.arr []))
         let r ← firstParagraph bs
         pure (r.getD "")) := rfl

/-- C3 (amended to the documented variants): replacing block kind tags by
the casing variants the spec documents — `list` ↔ `List` and `header` ↔
`Header` — changes neither the reading time nor the excerpt.  (General
casing variants are not supported: see the counterexample.) -/
theorem C3_kind_casing :
    ∀ c1 c2, docVariant c1 c2 = true →
      calcReadingTime c1 = calcReadingTime c2 ∧
      ∀ md, getExcerpt md c1 = getExcerpt md c2 := by
  intro c1 c2 h
  cases c1 with
  | obj kvs1 =>
    cases c2 with
    | obj kvs2 =>
      simp only [docVariant] at h
      obtain ⟨hOther, hBlocks⟩ := docEntriesVariant_lookup h
      have hf : isFalsy (Json.obj kvs1) = isFalsy (Json.obj kvs2) := by
        simp [isFalsy, docEntriesVariant_isEmpty h]
      constructor
      · rw [calcReadingTime_obj, calcReadingTime_obj, hf]
        by_cases hE : isFalsy (Json.obj kvs2) = true
        · rw [if_pos hE, if_pos hE]
        · rw [if_neg hE, if_neg hE]
          rcases hBlocks with heq | ⟨xs, ys, h1, h2, hbv⟩
          · rw [heq]
          · rw [h1, h2]
            simp only [pyIter, bind, Except.bind, sumBlockWords_variant hbv]
      · intro md
        by_cases hmd : md = ""
        · subst hmd
          rw [getExcerpt_obj, getExcerpt_obj, hf]
          by_cases hE : isFalsy (Json.obj kvs2) = true
          · rw [if_pos hE, if_pos hE]
          · rw [if_neg hE, if_neg hE]
            rcases hBlocks with heq | ⟨xs, ys, h1, h2, hbv⟩
            · rw [heq]
            · rw [h1, h2]
              simp only [Option.getD_some, pyIter, bind, Except.bind,
                firstParagraph_variant hbv]
        · simp [getExcerpt, hmd]
    | null =>
      simp only [docVariant, decide_eq_true_eq] at h
      exact Json.noConfusion h
    | bool x =>
      simp only [docVariant, decide_eq_true_eq] at h
      exact Json.noConfusion h
    | num x =>
      simp only [docVariant, decide_eq_true_eq] at h
      exact Json.noConfusion h
    | str x =>
      simp only [docVariant, decide_eq_true_eq] at h
      exact Json.noConfusion h
    | arr x =>
      simp only [docVariant, decide_eq_true_eq] at h
      exact Json.noConfusion h
  | null =>
    simp only [docVariant, decide_eq_true_eq] at h
    subst h
    exact ⟨rfl, fun md => rfl⟩
  | bool x =>
    simp only [docVariant, decide_eq_true_eq] at h
    subst h
    exact ⟨rfl, fun md => rfl⟩
  | num x =>
    simp only [docVariant, decide_eq_true_eq] at h
    subst h
    exact ⟨rfl, fun md => rfl⟩
  | str x =>
    simp only [docVariant, decide_eq_true_eq] at h
    subst h
    exact ⟨rfl, fun md => rfl⟩
  | arr x =>
    simp only [docVariant, decide_eq_true_eq] at h
    subst h
    exact ⟨rfl, fun md => rfl⟩

/-- Counterexample to C3 as stated: the excerpt function is not invariant
under arbitrary casing variants of kind tags — a block tagged
`Paragraph` (a casing variant of `paragraph`) is not excerpted, so the
two derivations disagree on otherwise identical documents. -/
theorem C3_kind_casing_counterexample :
    getExcerpt "" (Json.obj [("blocks", Json.arr [
        Json.obj [("type", Json.str "paragraph"),
          ("data", Json.obj [("text", Json.str "hi")])]])])
      = Except.ok "hi" ∧
    getExcerpt "" (Json.obj [("blocks", Json.arr [
        Json.obj [("type", Json.str "Paragraph"),
          ("data", Json.obj [("text", Json.str "hi")])]])])
      = Except.ok "" ∧
    getExcerpt "" (Json.obj [("blocks", Json.arr [
        Json.obj [("type", Json.str "paragraph"),
          ("data", Json.obj [("text", Json.str "hi")])]])])
      ≠ getExcerpt "" (Json.obj [("blocks", Json.arr [
        Json.obj [("type", Json.str "Paragraph"),
          ("data", Json.obj [("text", Json.str "hi")])]])]) := by
  refine ⟨rfl, rfl, fun h => ?_⟩
  have h2 : ("hi" : String) = "" := Except.ok.inj h
  exact absurd h2 (by decide)

/-- Witness for C3 at a document whose `header` and `list` tags are
replaced by `Header` and `List`. -/
theorem C3_kind_casing_witness :
    docVariant
      (Json.obj [("blocks", Json.arr [
        Json.obj [("type", Json.str "header"),
          ("data", Json.obj [("text", Json.str "T")])],
        Json.obj [("type", Json.str "list"),
          ("data", Json.obj [("items", Json.arr [Json.str "a b"])])]])])
      (Json.obj [("blocks", Json.arr [
        Json.obj [("type", Json.str "Header"),
          ("data", Json.obj [("text", Json.str "T")])],
        Json.obj [("type", Json.str "List"),
          ("data", Json.obj [("items", Json.arr [Json.str "a b"])])]])])
      = true ∧
    calcReadingTime
      (Json.obj [("blocks", Json.arr [
        Json.obj [("type", Json.str "header"),
          ("data", Json.obj [("text", Json.str "T")])],
        Json.obj [("type", Json.str "list"),
          ("data", Json.obj [("items", Json.arr [Json.str "a b"])])]])])
      = calcReadingTime
      (Json.obj [("blocks", Json.arr [
        Json.obj [("type", Json.str "Header"),
          ("data", Json.obj [("text", Json.str "T")])],
        Json.obj [("type", Json.str "List"),
          ("data", Json.obj [("items", Json.arr [Json.str "a b"])])]])]) ∧
    getExcerpt ""
      (Json.obj [("blocks", Json.arr [
        Json.obj [("type", Json.str "header"),
          ("data", Json.obj [("text", Json.str "T")])],
        Json.obj [("type", Json.str "list"),
          ("data", Json.obj [("items", Json.arr [Json.str "a b"])])]])])
      = getExcerpt ""
      (Json.obj [("blocks", Json.arr [
        Json.obj [("type", Json.str "Header"),
          ("data", Json.obj [("text", Json.str "T")])],
        Json.obj [("type", Json.str "List"),
          ("data", Json.obj [("items", Json.arr [Json.str "a b"])])]])]) :=
  ⟨by decide, (C3_kind_casing _ _ (by decide)).1, (C3_kind_casing _ _ (by decide)).2 ""⟩

theorem ofDigits_toDigitsGo :
    ∀ fuel n, n ≤ fuel → ofDigitsLE (toDigitsGo fuel n) = n := by
  intro fuel
  induction fuel with
  | zero =>
    intro n hn
    have : n = 0 := by omega
    subst this
    rfl
  | succ f ih =>
    intro n hn
    cases n with
    | zero => rfl
    | succ m =>
      have hdiv : (m + 1) / 10 ≤ f := by
        have h10 : (m + 1) / 10 < m + 1 :=
          Nat.div_lt_self (Nat.succ_pos m) (by norm_num)
        omega
      simp only [toDigitsGo, ofDigitsLE, ih _ hdiv]
      omega

theorem toDigitsGo_lt :
    ∀ fuel n, ∀ d ∈ toDigitsGo fuel n, d < 10 := by
  intro fuel
  induction fuel with
  | zero =>
    intro n d hd
    cases n with
    | zero => simp [toDigitsGo] at hd
    | succ m => simp [toDigitsGo] at hd
  | succ f ih =>
    intro n d hd
    cases n with
    | zero => simp [toDigitsGo] at hd
    | succ m =>
      simp only [toDigitsGo, List.mem_cons] at hd
      rcases hd with h | h
      · subst h
        exact Nat.mod_lt _ (by omega)
      · exact ih _ d h

theorem digitVal_digitChar10 : ∀ d, d < 10 → digitVal (digitChar10 d) = d := by
  decide

theorem strVal_map_digitChar10 :
    ∀ (ds : List Nat) (a : Nat), (∀ d ∈ ds, d < 10) →
      List.foldl (fun a c => a * 10 + digitVal c) a (ds.map digitChar10)
        = List.foldl (fun a d => a * 10 + d) a ds := by
  intro ds
  induction ds with
  | nil => intro a _; rfl
  | cons d t ih =>
    intro a h
    have hd : d < 10 := h d (by simp)
    have ht : ∀ x ∈ t, x < 10 := fun x hx => h x (by simp [hx])
    simp only [List.map_cons, List.foldl_cons, digitVal_digitChar10 d hd, ih _ ht]

theorem foldl_reverse_ofDigits :
    ∀ ds : List Nat,
      List.foldl (fun a d => a * 10 + d) 0 ds.reverse = ofDigitsLE ds := by
  intro ds
  induction ds with
  | nil => rfl
  | cons d t ih =>
    simp only [List.reverse_cons, List.foldl_append, List.foldl_cons,
      List.foldl_nil, ih, ofDigitsLE]
    omega

theorem strVal_natToStr : ∀ n, strVal (natToStr n).data = n := by
  intro n
  cases n with
  | zero => rfl
  | succ m =>
    have hlt : ∀ d ∈ (toDigitsGo (m + 1) (m + 1)).reverse, d < 10 := by
      intro d hd
      exact toDigitsGo_lt _ _ d (List.mem_reverse.1 hd)
    show strVal (((toDigitsGo (m + 1) (m + 1)).reverse).map digitChar10) = m + 1
    rw [strVal, strVal_map_digitChar10 _ 0 hlt, foldl_reverse_ofDigits,
      ofDigits_toDigitsGo _ _ (Nat.le_refl _)]

theorem natToStr_inj {m n : Nat} (h : natToStr m = natToStr n) : m = n := by
  have := congrArg (fun s => strVal s.data) h
  simpa [strVal_natToStr] using this

theorem natToStr_length_pos (n : Nat) : 1 ≤ (natToStr n).length := by
  cases n with
  | zero => decide
  | succ m =>
    show 1 ≤ (String.mk (((toDigitsGo (m + 1) (m + 1)).reverse).map digitChar10)).length
    simp [String.length, toDigitsGo]

theorem slugCand_inj (base : String) : Function.Injective (slugCand base) := by
  intro j k h
  match j, k with
  | 0, 0 => rfl
  | 0, k + 1 =>
    exfalso
    have hlen := congrArg String.length h
    simp only [slugCand, String.length_append] at hlen
    have := natToStr_length_pos (k + 1)
    omega
  | j + 1, 0 =>
    exfalso
    have hlen := congrArg String.length h
    simp only [slugCand, String.length_append] at hlen
    have := natToStr_length_pos (j + 1)
    omega
  | j + 1, k + 1 =>
    have hdata := congrArg String.data h
    simp only [slugCand, String.data_append] at hdata
    have h2 : (natToStr (j + 1)).data = (natToStr (k + 1)).data := by
      have h' : base.data ++ ('-' :: (natToStr (j + 1)).data)
          = base.data ++ ('-' :: (natToStr (k + 1)).data) := by
        simpa [List.append_assoc] using hdata
      simpa using List.append_cancel_left h'
    have h3 : natToStr (j + 1) = natToStr (k + 1) := by
      have := congrArg String.mk h2
      exact this
    rw [natToStr_inj h3]

theorem exists_free_cand (existing : List String) (base : String) :
    ∃ k, k ≤ existing.length ∧ slugCand base k ∉ existing := by
  by_contra hcon
  push_neg at hcon
  have hsub : ((List.range (existing.length + 1)).map (slugCand base))
      ⊆ existing := by
    intro x hx
    simp only [List.mem_map, List.mem_range] at hx
    obtain ⟨k, hk, rfl⟩ := hx
    exact hcon k (by omega)
  have hnd : ((List.range (existing.length + 1)).map (slugCand base)).Nodup :=
    (List.nodup_range _).map (slugCand_inj base)
  have hfin : ((List.range (existing.length + 1)).map
      (slugCand base)).toFinset ⊆ existing.toFinset := by
    intro x hx
    rw [List.mem_toFinset] at hx ⊢
    exact hsub hx
  have hcard := Finset.card_le_card hfin
  rw [List.toFinset_card_of_nodup hnd] at hcard
  have h1 : ((List.range (existing.length + 1)).map (slugCand base)).length
      = existing.length + 1 := by simp
  have h2 := List.toFinset_card_le existing
  omega

theorem slugWhile_eq (existing : List String) (base : String) (K : Nat)
    (hKfree : slugCand base K ∉ existing)
    (hKmin : ∀ j < K, slugCand base j ∈ existing) :
    ∀ fuel counter, 1 ≤ counter → counter - 1 ≤ K → K ≤ counter - 1 + fuel →
      slugWhile existing base fuel (slugCand base (counter - 1)) counter
        = slugCand base K := by
  intro fuel
  induction fuel with
  | zero =>
    intro counter h1 h2 h3
    have hK : K = counter - 1 := by omega
    subst hK
    rfl
  | succ f ih =>
    intro counter h1 h2 h3
    simp only [slugWhile]
    by_cases hc : slugCand base (counter - 1) ∈ existing
    · rw [if_pos hc]
      have hne : counter - 1 ≠ K := by
        intro hE
        rw [hE] at hc
        exact hKfree hc
      have hlt : counter - 1 < K := by omega
      obtain ⟨c2, rfl⟩ : ∃ c2, counter = c2 + 1 := ⟨counter - 1, by omega⟩
      have hcand : base ++ "-" ++ natToStr (c2 + 1)
          = slugCand base (c2 + 1) := rfl
      rw [hcand]
      have := ih (c2 + 2) (by omega) (by omega) (by omega)
      simpa using this
    · rw [if_neg hc]
      have hK : counter - 1 = K := by
        rcases Nat.lt_or_ge (counter - 1) K with hlt | hge
        · exact absurd (hKmin _ hlt) hc
        · omega
      rw [hK]

theorem genSlug_spec (existing : List String) (title : String) :
    genSlug existing title ∉ existing ∧
    ∃ k, genSlug existing title = slugCand (slugify title) k ∧
      ∀ j < k, slugCand (slugify title) j ∈ existing := by
  obtain ⟨k0, hk0le, hk0free⟩ := exists_free_cand existing (slugify title)
  have hex : ∃ k, slugCand (slugify title) k ∉ existing := ⟨k0, hk0free⟩
  have hKfree := Nat.find_spec hex
  have hKmin : ∀ j < Nat.find hex, slugCand (slugify title) j ∈ existing := by
    intro j hj
    have := Nat.find_min hex hj
    simpa using this
  have hKle : Nat.find hex ≤ k0 := Nat.find_min' hex hk0free
  have heq : genSlug existing title = slugCand (slugify title) (Nat.find hex) := by
    have h := slugWhile_eq existing (slugify title) (Nat.find hex) hKfree hKmin
      (existing.length + 1) 1 (by omega) (by omega) (by omega)
    simpa [genSlug, slugCand] using h
  refine ⟨?_, Nat.find hex, heq, hKmin⟩
  rw [heq]
  exact hKfree

/-- C5: on every save with a blank slug, the slug is the slugified title,
disambiguated against the other stored posts' slugs by appending `-1`,
`-2`, … in order until free (`genSlug_spec` gives freeness and that every
earlier candidate was taken); and two successive creations titled
"Hello World" get slugs `hello-world` and `hello-world-1`. -/
theorem C5_slug_generation :
    (∀ existing title,
      genSlug existing title ∉ existing ∧
      ∃ k, genSlug existing title = slugCand (slugify title) k ∧
        ∀ j < k, slugCand (slugify title) j ∈ existing) ∧
    (∀ db now p p', p.slug = "" → applySave db now p = Except.ok p' →
      p'.slug = genSlug (otherSlugs db p) p.title) ∧
    ((do
      let r1 ← createPost [] 0
        ⟨none, "Hello World", "", "", Json.null, "draft", none, 0, 0⟩
      let r2 ← createPost r1.fst 0
        ⟨none, "Hello World", "", "", Json.null, "draft", none, 0, 0⟩
      pure (r1.snd.slug, r2.snd.slug))
      = Except.ok ("hello-world", "hello-world-1")) := by
  refine ⟨genSlug_spec, ?_, ?_⟩
  · intro db now p p' hslug hsave
    simp only [applySave, hslug, reduceIte, bind, Except.bind] at hsave
    split at hsave
    · simp at hsave
    · simp only [pure, Except.pure, Except.ok.injEq] at hsave
      subst hsave
      split_ifs <;> rfl
  · rfl

/-- Witness for C5: saving a fresh untitled-slug post into an empty store
yields the slugified title. -/
theorem C5_slug_generation_witness :
    (⟨none, "Hello World", "hello-world", "", Json.null, "draft", none,
      1, 0⟩ : Post).slug
      = genSlug
          (otherSlugs []
            ⟨none, "Hello World", "", "", Json.null, "draft", none, 0, 0⟩)
          (Post.title
            ⟨none, "Hello World", "", "", Json.null, "draft", none, 0, 0⟩) :=
  C5_slug_generation.2.1 [] 0 _ _ rfl rfl

theorem applySave_ok_publishedAt {db : List Post} {now : Nat} {p p' : Post}
    (h : applySave db now p = Except.ok p') :
    p'.publishedAt =
      (if p.status = "published" ∧ p.publishedAt = none then some now
       else p.publishedAt) := by
  simp only [applySave, bind, Except.bind] at h
  split at h
  · simp at h
  · simp only [pure, Except.pure, Except.ok.injEq] at h
    subst h
    by_cases hs : p.slug = "" <;>
      by_cases hc : p.status = "published" ∧ p.publishedAt = none
    · simp [hs, hc.1, hc.2]
    · simp [hs, hc]
    · simp [hs, hc.1, hc.2]
    · simp [hs, hc]

/-- C6: `published_at` is stamped exactly once — a save of a post whose
`published_at` is already set leaves it unchanged, a save of a published
post without one stamps the current time; publishing an
already-published post answers 400 without touching the store; and
unpublishing when every matching post is a draft answers a 4xx client
error (400 when found, 404 when filtered out) without touching the
store; publishing the same post twice leaves `published_at` at the first
publish time. -/
theorem C6_publish_idempotent :
    (∀ (db : List Post) (now : Nat) (p p' : Post) (t : Nat),
      p.publishedAt = some t → applySave db now p = Except.ok p' →
      p'.publishedAt = some t) ∧
    (∀ (db : List Post) (now : Nat) (p p' : Post),
      p.status = "published" → p.publishedAt = none →
      applySave db now p = Except.ok p' → p'.publishedAt = some now) ∧
    (∀ db flag slug now p, getObject db flag slug = some p →
      p.status = "published" →
      publishAction db flag slug now
        = (ApiResp.badRequest "Blog post is already published", db)) ∧
    (∀ db flag slug now,
      (∀ p, getObject db flag slug = some p → p.status = "draft") →
      isClientError (unpublishAction db flag slug now).fst = true ∧
      (unpublishAction db flag slug now).snd = db) ∧
    ((publishAction
        [⟨some 1, "T", "hello", "", Json.null, "draft", none, 0, 0⟩]
        true "hello" 100).snd
      = [⟨some 1, "T", "hello", "", Json.null, "published", some 100, 1, 0⟩] ∧
     publishAction
        (publishAction
          [⟨some 1, "T", "hello", "", Json.null, "draft", none, 0, 0⟩]
          true "hello" 100).snd
        true "hello" 200
      = (ApiResp.badRequest "Blog post is already published",
         [⟨some 1, "T", "hello", "", Json.null, "published", some 100, 1, 0⟩])) := by
  refine ⟨?_, ?_, ?_, ?_, rfl, rfl⟩
  · intro db now p p' t ht hsave
    rw [applySave_ok_publishedAt hsave, ht]
    simp
  · intro db now p p' hst hpub hsave
    rw [applySave_ok_publishedAt hsave]
    simp [hst, hpub]
  · intro db flag slug now p hget hpub
    simp [publishAction, hget, hpub]
  · intro db flag slug now hdraft
    rcases hget : getObject db flag slug with _ | p
    · simp [unpublishAction, hget, isClientError]
    · have hd := hdraft p hget
      simp [unpublishAction, hget, hd, isClientError]

/-- Witness for C6: re-publishing an already-published post is rejected
with a 400 and the store is unchanged, and a saved already-stamped post
keeps its timestamp. -/
theorem C6_publish_idempotent_witness :
    publishAction
        [⟨some 1, "T", "s", "", Json.null, "published", some 5, 1, 0⟩]
        false "s" 9
      = (ApiResp.badRequest "Blog post is already published",
         [⟨some 1, "T", "s", "", Json.null, "published", some 5, 1, 0⟩]) ∧
    (⟨some 1, "T", "s", "", Json.null, "published", some 5, 1, 0⟩ :
        Post).publishedAt = some 5 :=
  ⟨C6_publish_idempotent.2.2.1
      [⟨some 1, "T", "s", "", Json.null, "published", some 5, 1, 0⟩]
      false "s" 9 _ rfl rfl,
   C6_publish_idempotent.1
      [] 9 ⟨some 1, "T", "s", "", Json.null, "published", some 5, 1, 0⟩
      ⟨some 1, "T", "s", "", Json.null, "published", some 5, 1, 0⟩ 5 rfl rfl⟩

/-- C7: retrieving a post by slug persists exactly one more view on the
rows with that post's key and leaves every other field of every row (and
all other rows) unchanged — the `update_fields=['views_count']` write
only touches the counter even though the save pipeline reruns in
memory. -/
theorem C7_view_increment :
    ∀ (db : List Post) (flag : Bool) (slug : String) (now : Nat) (p : Post),
      getObject db flag slug = some p →
      (∀ q ∈ db, q.pk = p.pk → q = p) →
      (∃ rt, calcReadingTime p.content = Except.ok rt) →
      (retrieveAction db flag slug now).snd
        = db.map (fun q => if q.pk = p.pk then
            { q with viewsCount := q.viewsCount + 1 } else q) := by
  intro db flag slug now p hget huniq hrt
  obtain ⟨rt, hrt⟩ := hrt
  have hinc : ∃ pm, incrementViews db now p = Except.ok
      (db.map (fun q => if q.pk = p.pk then
        { q with viewsCount := p.viewsCount + 1 } else q), pm) := by
    simp only [incrementViews, applySave, bind, Except.bind]
    by_cases hs : p.slug = "" <;>
      by_cases hc : p.status = "published" ∧ p.publishedAt = none
    · simp [hs, hc.1, hc.2, hrt, pure, Except.pure]
    · simp [hs, hc, hrt, pure, Except.pure]
    · simp [hs, hc.1, hc.2, hrt, pure, Except.pure]
    · simp [hs, hc, hrt, pure, Except.pure]
  obtain ⟨pm, hinc⟩ := hinc
  simp only [retrieveAction, hget, hinc]
  apply List.map_congr_left
  intro q hq
  by_cases hpk : q.pk = p.pk
  · rw [huniq q hq hpk]
  · simp [hpk]

/-- Witness for C7: one retrieve bumps a stored post's counter from 7 to
8 and changes nothing else. -/
theorem C7_view_increment_witness :
    (retrieveAction
        [⟨some 1, "T", "s", "", Json.null, "published", some 5, 1, 7⟩]
        false "s" 9).snd
      = [⟨some 1, "T", "s", "", Json.null, "published", some 5, 1, 8⟩] := by
  rw [C7_view_increment
      [⟨some 1, "T", "s", "", Json.null, "published", some 5, 1, 7⟩]
      false "s" 9 ⟨some 1, "T", "s", "", Json.null, "published", some 5, 1, 7⟩
      rfl (by decide) ⟨1, rfl⟩]
  rfl

/-- C8: on every SEO-tag save, blank Open-Graph fields default from the
basic SEO fields and blank Twitter-card fields default from the
(already-defaulted) Open-Graph fields; non-blank fields and every other
field are unchanged. -/
theorem C8_seo_fallback :
    ∀ t : SEOTag, seoSave t =
      { t with
        ogTitle := blankDefault t.ogTitle t.pageTitle
        ogDescription := blankDefault t.ogDescription t.metaDescription
        ogUrl := blankDefault t.ogUrl ("https://www.evall.in" ++ t.pagePath)
        twitterTitle := blankDefault t.twitterTitle
          (blankDefault t.ogTitle t.pageTitle)
        twitterDescription := blankDefault t.twitterDescription
          (blankDefault t.ogDescription t.metaDescription)
        twitterImageUrl := blankDefault t.twitterImageUrl t.ogImageUrl } := by
  intro t
  by_cases h1 : t.ogTitle = "" <;> by_cases h2 : t.ogDescription = "" <;>
    by_cases h3 : t.ogUrl = "" <;> by_cases h4 : t.twitterTitle = "" <;>
    by_cases h5 : t.twitterDescription = "" <;>
    by_cases h6 : t.twitterImageUrl = "" <;>
    simp [seoSave, blankDefault, h1, h2, h3, h4, h5, h6]

theorem advSave_inv {db : List (Nat × AdvRec)} {r : AdvRec}
    (h1 : db.length ≤ 1) (h2 : ∀ e ∈ db, e.fst = 1) :
    (advSave db r).length ≤ 1 ∧ ∀ e ∈ advSave db r, e.fst = 1 := by
  unfold advSave
  by_cases hany : db.any (fun e => e.fst = 1)
  · rw [if_pos hany]
    constructor
    · simpa using h1
    · intro e he
      simp only [List.mem_map] at he
      obtain ⟨q, hq, rfl⟩ := he
      split_ifs with hf
      · rfl
      · exact h2 q hq
  · rw [if_neg hany]
    cases db with
    | nil => simp
    | cons e t =>
      exfalso
      apply hany
      simp only [List.any_cons, Bool.or_eq_true]
      left
      simp [h2 e (by simp)]

/-- C9: the advanced SEO settings record is a singleton — `delete` is a
no-op on the store, and any sequence of saves and deletes starting from
an empty store leaves at most one row, always with primary key 1. -/
theorem C9_advanced_seo_singleton :
    (∀ db : List (Nat × AdvRec), advDelete db = db) ∧
    (∀ ops : List AdvOp,
      (applyAdvOps ops []).length ≤ 1 ∧
      ∀ e ∈ applyAdvOps ops [], e.fst = 1) := by
  refine ⟨fun db => rfl, ?_⟩
  have inv : ∀ (ops : List AdvOp) (db : List (Nat × AdvRec)),
      db.length ≤ 1 → (∀ e ∈ db, e.fst = 1) →
      (applyAdvOps ops db).length ≤ 1 ∧
        ∀ e ∈ applyAdvOps ops db, e.fst = 1 := by
    intro ops
    induction ops with
    | nil => intro db h1 h2; exact ⟨h1, h2⟩
    | cons op t ih =>
      intro db h1 h2
      cases op with
      | save r =>
        obtain ⟨g1, g2⟩ := advSave_inv h1 h2
        exact ih (advSave db r) g1 g2
      | del => exact ih db h1 h2
  intro ops
  exact inv ops [] (by simp) (by simp)

theorem insertDesc_perm (p : Post) (l : List Post) :
    List.Perm (insertDesc p l) (p :: l) := by
  induction l with
  | nil => exact List.Perm.refl _
  | cons q t ih =>
    simp only [insertDesc]
    split_ifs with h
    · exact List.Perm.refl _
    · exact (ih.cons q).trans (List.Perm.swap p q t)

theorem sortDesc_perm (l : List Post) : List.Perm (sortDesc l) l := by
  induction l with
  | nil => exact List.Perm.refl _
  | cons p t ih =>
    exact (insertDesc_perm p (sortDesc t)).trans (ih.cons p)

theorem insertDesc_pairwise {p : Post} {l : List Post}
    (h : List.Pairwise (fun a b => pubOrd b ≤ pubOrd a) l) :
    List.Pairwise (fun a b => pubOrd b ≤ pubOrd a) (insertDesc p l) := by
  induction l with
  | nil => simp [insertDesc]
  | cons q t ih =>
    rw [List.pairwise_cons] at h
    obtain ⟨hq, ht⟩ := h
    simp only [insertDesc]
    split_ifs with hlt
    · rw [List.pairwise_cons]
      refine ⟨?_, List.pairwise_cons.2 ⟨hq, ht⟩⟩
      intro b hb
      rcases List.mem_cons.1 hb with hb | hb
      · subst hb
        omega
      · have := hq b hb
        omega
    · rw [List.pairwise_cons]
      refine ⟨?_, ih ht⟩
      intro b hb
      have hb2 := (insertDesc_perm p t).mem_iff.1 hb
      rcases List.mem_cons.1 hb2 with hb2 | hb2
      · subst hb2
        omega
      · exact hq b hb2

theorem sortDesc_pairwise (l : List Post) :
    List.Pairwise (fun a b => pubOrd b ≤ pubOrd a) (sortDesc l) := by
  induction l with
  | nil => simp [sortDesc]
  | cons p t ih => exact insertDesc_pairwise ih

/-- C10: the latest endpoint sanitizes the limit (missing, non-integer,
or non-positive become 5; a positive integer is kept), returns at most
`limit` posts taken from the published-only queryset ordered by
descending published date, and reports the total number of matching
posts as the count, not the number returned. -/
theorem C10_latest :
    (parseLimit none = 5) ∧
    (∀ s, pyInt s = none → parseLimit (some s) = 5) ∧
    (∀ s n, pyInt s = some n → n ≤ 0 → parseLimit (some s) = 5) ∧
    (∀ s n, pyInt s = some n → 0 < n → parseLimit (some s) = n.toNat) ∧
    (∀ db q, (latestAction db false q).results.length ≤ parseLimit q) ∧
    (∀ db q, (latestAction db false q).count
        = (db.filter (fun p => p.status = "published")).length) ∧
    (∀ db q, (latestAction db false q).results
        = (sortDesc (db.filter (fun p => p.status = "published"))).take
            (parseLimit q)) ∧
    (∀ db, List.Perm (sortDesc (publishedOnly db false)) (publishedOnly db false)
      ∧ List.Pairwise (fun a b => pubOrd b ≤ pubOrd a)
          (sortDesc (publishedOnly db false))) := by
  refine ⟨rfl, ?_, ?_, ?_, ?_, ?_, ?_, ?_⟩
  · intro s h
    simp [parseLimit, h]
  · intro s n h hn
    simp [parseLimit, h, hn]
  · intro s n h hn
    simp [parseLimit, h, not_le.2 hn]
  · intro db q
    exact List.length_take_le _ _
  · intro db q
    rfl
  · intro db q
    rfl
  · intro db
    exact ⟨sortDesc_perm _, sortDesc_pairwise _⟩

/-- Witness for C10: the limit parameter "3" parses to 3 and "abc" falls
back to 5. -/
theorem C10_latest_witness :
    parseLimit (some "3") = 3 ∧ parseLimit (some "abc") = 5 :=
  ⟨C10_latest.2.2.2.1 "3" 3 rfl (by decide),
   C10_latest.2.1 "abc" rfl⟩
